import Mathlib

/-!
Verification of the Focus Nexus tree-walking interpreter
(lexer, dynamic value model, native builtins, and evaluator)
against its natural-language specification.

The C++ sources are shallowly embedded: `double` is modelled by `ℚ`
(exact arithmetic; NaN/infinity and binary rounding are outside the
model), `std::shared_ptr` identity is modelled by heap handles
(natural-number indices into explicit heaps carried in the interpreter
state), and C++ exceptions (RuntimeError, ReturnValue,
std::runtime_error) are modelled by an explicit outcome type threaded
through a fuel-indexed evaluator.
-/

namespace FocusNexus

/-- `TokenType` from src/src/lexer/token.hpp (same names, same order). -/
inductive TokenType where
  | LEFT_PAREN | RIGHT_PAREN | LEFT_BRACE | RIGHT_BRACE
  | LEFT_BRACKET | RIGHT_BRACKET | COMMA | DOT | MINUS | PLUS
  | SEMICOLON | SLASH | STAR | COLON | PERCENT | CARET | AMPERSAND
  | PIPE | TILDE | QUESTION | AT
  | BANG | BANG_EQUAL
  | EQUAL | EQUAL_EQUAL
  | GREATER | GREATER_EQUAL
  | LESS | LESS_EQUAL
  | PLUS_PLUS | MINUS_MINUS | PLUS_EQUAL | MINUS_EQUAL
  | STAR_EQUAL | SLASH_EQUAL | STAR_STAR | ARROW
  | LEFT_SHIFT | RIGHT_SHIFT
  | IDENTIFIER | STRING | NUMBER
  | AND | CLASS | ELSE | FALSE | FOR | FUNCTION | IF | NIL | OR
  | PRINT | RETURN | SUPER | THIS | TRUE | VAR | WHILE | LET
  | BREAK | CONTINUE
  | IMPORT_KW
  | FROM | AS | TRY | CATCH | FINALLY
  | THROW | LAMBDA | SWITCH | CASE | DEFAULT | EXTENDS | STATIC
  | PRIVATE | PUBLIC | PROTECTED | CONST | ASYNC | AWAIT
  | NEWLINE | EOF_TOKEN
deriving DecidableEq

/-- `Token` from src/src/lexer/token.hpp: kind, verbatim lexeme, decoded
literal payload, and source line/column. -/
structure Token where
  type : TokenType
  lexeme : String
  literal : String
  line : Int
  column : Int
deriving DecidableEq

/-- A diagnostic recorded through `ErrorHandler::error(line, column, message)`
(src/src/error/error_handler.cpp): the model accumulates reports instead of
writing to standard error. -/
structure LexErr where
  line : Int
  column : Int
  message : String
deriving DecidableEq

/-- The dynamic `Value` from src/src/runtime/value.hpp: a variant over
nil, bool, double, string, and four shared-pointer alternatives
(`Callable`, list, `FocusClass`, `FocusInstance`).  Shared-pointer
identity is modelled by a handle (index) into the corresponding heap of
the interpreter state; two values hold the same C++ pointer exactly when
they hold the same handle. -/
inductive Value where
  | nil
  | bool (b : Bool)
  | num (q : ℚ)
  | str (s : String)
  | callable (h : ℕ)
  | list (h : ℕ)
  | cls (h : ℕ)
  | inst (h : ℕ)
deriving DecidableEq

namespace Value

/-- `Value::isNil` (src/src/runtime/value.cpp). -/
def isNil : Value → Bool
  | .nil => true
  | _ => false

/-- `Value::isBool`. -/
def isBool : Value → Bool
  | .bool _ => true
  | _ => false

/-- `Value::isNumber`. -/
def isNumber : Value → Bool
  | .num _ => true
  | _ => false

/-- `Value::isString`. -/
def isString : Value → Bool
  | .str _ => true
  | _ => false

/-- `Value::isCallable` (src/src/runtime/value.cpp lines 21-23): it holds
exactly for the `std::shared_ptr<Callable>` alternative — NOT for the
class or instance alternatives. -/
def isCallable : Value → Bool
  | .callable _ => true
  | _ => false

/-- `Value::isList`. -/
def isList : Value → Bool
  | .list _ => true
  | _ => false

/-- Modelled from the spec: `Value::isClass` is declared in
src/src/runtime/value.hpp but its definition is not in the repository;
per spec §3 the value is a tagged sum, so the check is the variant test. -/
def isClass : Value → Bool
  | .cls _ => true
  | _ => false

/-- Modelled from the spec: `Value::isInstance` is declared in
src/src/runtime/value.hpp but its definition is not in the repository;
modelled as the variant test, as for `isClass`. -/
def isInstance : Value → Bool
  | .inst _ => true
  | _ => false

/-- `Value::asBool` (`std::get<bool>`); total in the model, returning a
default outside the guarded variant — every caller in the source guards
it with `isBool`. -/
def asBool : Value → Bool
  | .bool b => b
  | _ => false

/-- `Value::asNumber` (`std::get<double>`); default outside the guard. -/
def asNumber : Value → ℚ
  | .num q => q
  | _ => 0

/-- `Value::asString`; default outside the guard. -/
def asString : Value → String
  | .str s => s
  | _ => ""

/-- `Value::asCallable` as the held handle; default outside the guard. -/
def asCallableH : Value → ℕ
  | .callable h => h
  | _ => 0

/-- `Value::asList` as the held handle; default outside the guard. -/
def asListH : Value → ℕ
  | .list h => h
  | _ => 0

/-- `Value::asClass` as the held handle; default outside the guard. -/
def asClsH : Value → ℕ
  | .cls h => h
  | _ => 0

/-- `Value::asInstance` as the held handle; default outside the guard. -/
def asInstH : Value → ℕ
  | .inst h => h
  | _ => 0

/-- `value.index()`: the position of the held alternative in the
`ValueVariant` declaration (src/src/runtime/value.hpp lines 11-20). -/
def variantIdx : Value → ℕ
  | .nil => 0
  | .bool _ => 1
  | .num _ => 2
  | .str _ => 3
  | .callable _ => 4
  | .list _ => 5
  | .cls _ => 6
  | .inst _ => 7

/-- `Value::isTruthy` (src/src/runtime/value.cpp lines 49-55). -/
def isTruthy (v : Value) : Bool :=
  if v.isNil then false
  else if v.isBool then v.asBool
  else if v.isNumber then v.asNumber != 0
  else if v.isString then !(v.asString.isEmpty)
  else true

/-- `Value::getType` (src/src/runtime/value.cpp lines 83-91): the chain of
variant checks ends in `return "unknown"`, which is what the class and
instance alternatives fall into. -/
def getType (v : Value) : String :=
  if v.isNil then "nil"
  else if v.isBool then "boolean"
  else if v.isNumber then "number"
  else if v.isString then "string"
  else if v.isCallable then "function"
  else if v.isList then "list"
  else "unknown"

/-- `Value::operator==` (src/src/runtime/value.cpp lines 93-104): first the
variant-index comparison, then the chain of variant checks; pointer
comparison for callable and list becomes handle comparison.  The class
and instance alternatives fall through every check to `return false`. -/
def veq (a b : Value) : Bool :=
  if a.variantIdx != b.variantIdx then false
  else if a.isNil then true
  else if a.isBool then a.asBool == b.asBool
  else if a.isNumber then a.asNumber == b.asNumber
  else if a.isString then a.asString == b.asString
  else if a.isCallable then a.asCallableH == b.asCallableH
  else if a.isList then a.asListH == b.asListH
  else false

end Value

/-! ### Number formatting (`Value::toString`, number branch) and `std::stod`

`double` is modelled by `ℚ`.  `std::to_string(double)` is `%f` formatting:
six fractional digits, rounded to nearest (ties are immaterial to every
statement below and are modelled as half-up on the magnitude).
`static_cast<int>` is truncation toward zero; it is undefined behaviour
outside int range, so theorems that depend on it carry a `|q| < 2^31`
hypothesis. -/

/-- `static_cast<int>(double)`: truncation toward zero. -/
def truncD (q : ℚ) : Int := Int.tdiv q.num (q.den : Int)

/-- The character for decimal digit `d` (`'0' + d`). -/
def digitChar10 (d : ℕ) : Char := Char.ofNat (48 + d)

/-- Decimal digit test, as `std::stod` accepts (`'0'` through `'9'`). -/
def isDigitChar (c : Char) : Bool := 48 ≤ c.toNat && c.toNat ≤ 57

/-- Numeric value of a digit character. -/
def digVal (c : Char) : ℕ := c.toNat - 48

/-- Little-endian base-10 digits, fuel-indexed so that it reduces inside
the kernel (`Nat.digits` does not); `decDigits_eq_digits` identifies it
with `Nat.digits 10`. -/
def decDigitsAux : ℕ → ℕ → List ℕ
  | 0, _ => []
  | _ + 1, 0 => []
  | f + 1, n + 1 => ((n + 1) % 10) :: decDigitsAux f ((n + 1) / 10)

/-- Little-endian base-10 digits of `n`. -/
def decDigits (n : ℕ) : List ℕ := decDigitsAux n n

lemma decDigitsAux_eq_digits (f : ℕ) : ∀ n, n ≤ f → decDigitsAux f n = Nat.digits 10 n := by
  induction f with
  | zero =>
    intro n hn
    interval_cases n
    simp [decDigitsAux]
  | succ f ih =>
    intro n hn
    cases n with
    | zero => simp [decDigitsAux]
    | succ n =>
      have hdiv : (n + 1) / 10 ≤ f := by
        have := Nat.div_lt_self (Nat.succ_pos n) (by norm_num : 1 < 10)
        omega
      rw [decDigitsAux, ih _ hdiv,
        Nat.digits_def' (by norm_num : 1 < 10) (Nat.succ_pos n)]

lemma decDigits_eq_digits (n : ℕ) : decDigits n = Nat.digits 10 n :=
  decDigitsAux_eq_digits n n le_rfl

/-- Decimal digit characters of `n`, most significant first
(the rendering `std::to_string` produces for a non-negative integer). -/
def natToDecChars (n : ℕ) : List Char :=
  if n = 0 then ['0'] else ((decDigits n).reverse.map digitChar10)

/-- Decimal string of `n : ℕ`. -/
def natDecString (n : ℕ) : String := String.mk (natToDecChars n)

/-- `std::to_string(int)`: sign then decimal digits. -/
def intToDecString (z : ℤ) : String :=
  if z < 0 then "-" ++ natDecString z.natAbs else natDecString z.natAbs

/-- Left-pad a digit list with `'0'` to six characters (the fractional
part of `%f` always has exactly six digits). -/
def zeroPad6 (ds : List Char) : List Char :=
  List.replicate (6 - ds.length) '0' ++ ds

/-- `std::to_string(double)` (`%f`): sign of the value, integer part,
`'.'`, and exactly six fractional digits of the magnitude rounded to
nearest. -/
def fixed6 (q : ℚ) : String :=
  (if q < 0 then "-" else "") ++
    natDecString ((round (|q| * 1000000)).toNat / 1000000) ++ "." ++
    String.mk (zeroPad6 (natToDecChars ((round (|q| * 1000000)).toNat % 1000000)))

/-- The `isNumber` branch of `Value::toString`
(src/src/runtime/value.cpp lines 60-66): integer-looking values print via
`std::to_string(static_cast<int>(num))`, the rest via
`std::to_string(double)`. -/
def numberToString (q : ℚ) : String :=
  if q = ((truncD q : ℤ) : ℚ) then intToDecString (truncD q) else fixed6 q

/-- Digit-list parse helper for `std::stod`: integer part, then an
optional `'.'` and fractional digits.  Exact rational value (the model's
`double` is exact). -/
def parseUnsigned (l : List Char) : Option ℚ :=
  let intPart := l.takeWhile isDigitChar
  let rest := l.dropWhile isDigitChar
  if intPart.isEmpty then none
  else
    let iv : ℕ := Nat.ofDigits 10 ((intPart.map digVal).reverse)
    match rest with
    | [] => some (iv : ℚ)
    | c :: frac =>
      if c = '.' && frac.all isDigitChar then
        some ((iv : ℚ) +
          (Nat.ofDigits 10 ((frac.map digVal).reverse) : ℚ) / (10 : ℚ) ^ frac.length)
      else none

/-- Numeric value of an all-digit character list (used by the parser and
the round-trip proofs). -/
def charsToNat (l : List Char) : ℕ := Nat.ofDigits 10 ((l.map digVal).reverse)

/-- `std::stod` (used by `createNumFunction`,
src/src/runtime/native_functions.cpp line 82), modelled on the plain
decimal forms `[sign] digits [. digits]` that `Value::toString` produces;
exponents, hex, inf/nan, leading whitespace and partial-prefix parsing
are outside the model. -/
def stodModel (s : String) : Option ℚ :=
  match s.data with
  | [] => none
  | c :: rest =>
    if c = '-' then (parseUnsigned rest).map (fun q => -q)
    else if c = '+' then parseUnsigned rest
    else parseUnsigned (c :: rest)

lemma digitChar10_toNat {d : ℕ} (hd : d < 10) : (digitChar10 d).toNat = 48 + d := by
  interval_cases d <;> decide

lemma digVal_digitChar10 {d : ℕ} (hd : d < 10) : digVal (digitChar10 d) = d := by
  interval_cases d <;> decide

lemma isDigitChar_digitChar10 {d : ℕ} (hd : d < 10) : isDigitChar (digitChar10 d) = true := by
  interval_cases d <;> decide

lemma natToDecChars_ne_nil (n : ℕ) : natToDecChars n ≠ [] := by
  unfold natToDecChars
  split
  · simp
  · rename_i h
    simp [decDigits_eq_digits, Nat.digits_ne_nil_iff_ne_zero, h]

lemma natToDecChars_all_digit (n : ℕ) :
    ∀ c ∈ natToDecChars n, isDigitChar c = true := by
  intro c hc
  unfold natToDecChars at hc
  rw [decDigits_eq_digits] at hc
  split at hc
  · simp at hc
    subst hc; decide
  · simp only [List.mem_map, List.mem_reverse] at hc
    obtain ⟨d, hd, rfl⟩ := hc
    exact isDigitChar_digitChar10 (Nat.digits_lt_base (by norm_num) hd)

lemma charsToNat_natToDecChars (n : ℕ) : charsToNat (natToDecChars n) = n := by
  unfold charsToNat natToDecChars
  rw [decDigits_eq_digits]
  split
  · rename_i h
    subst h; decide
  · rw [List.map_reverse, List.map_reverse, List.reverse_reverse, List.map_map]
    have : ∀ d ∈ Nat.digits 10 n, (digVal ∘ digitChar10) d = d := by
      intro d hd
      exact digVal_digitChar10 (Nat.digits_lt_base (by norm_num) hd)
    rw [List.map_congr_left this]
    simpa using Nat.ofDigits_digits 10 n

lemma natToDecChars_length_le {n : ℕ} (h : n < 10 ^ 6) :
    (natToDecChars n).length ≤ 6 := by
  unfold natToDecChars
  rw [decDigits_eq_digits]
  split
  · simp
  · rename_i hn
    rw [List.length_map, List.length_reverse,
      Nat.digits_len 10 n (by norm_num) hn]
    have := Nat.log_lt_of_lt_pow hn h
    omega

lemma takeWhile_append_cons {α : Type} (p : α → Bool) (l1 : List α) (c : α) (l2 : List α)
    (h1 : ∀ x ∈ l1, p x = true) (hc : p c = false) :
    (l1 ++ c :: l2).takeWhile p = l1 ∧ (l1 ++ c :: l2).dropWhile p = c :: l2 := by
  induction l1 with
  | nil => simp [List.takeWhile_cons, List.dropWhile_cons, hc]
  | cons a l ih =>
    have ha := h1 a (by simp)
    have h' := ih (fun x hx => h1 x (by simp [hx]))
    simp [List.takeWhile_cons, List.dropWhile_cons, ha, h'.1, h'.2]

lemma parseUnsigned_digits (l : List Char) (hne : l ≠ [])
    (hall : ∀ c ∈ l, isDigitChar c = true) :
    parseUnsigned l = some (charsToNat l : ℚ) := by
  unfold parseUnsigned
  rw [List.takeWhile_eq_self_iff.mpr hall, List.dropWhile_eq_nil_iff.mpr hall]
  cases l with
  | nil => cases hne rfl
  | cons c r => simp [charsToNat]

lemma parseUnsigned_digits_frac (l1 l2 : List Char) (h1 : l1 ≠ [])
    (hall1 : ∀ c ∈ l1, isDigitChar c = true)
    (hall2 : ∀ c ∈ l2, isDigitChar c = true) :
    parseUnsigned (l1 ++ '.' :: l2) =
      some ((charsToNat l1 : ℚ) + (charsToNat l2 : ℚ) / (10 : ℚ) ^ l2.length) := by
  have hdot : isDigitChar '.' = false := by decide
  obtain ⟨ht, hd⟩ := takeWhile_append_cons isDigitChar l1 '.' l2 hall1 hdot
  unfold parseUnsigned
  rw [ht, hd]
  cases l1 with
  | nil => cases h1 rfl
  | cons c r =>
    simp only [List.isEmpty_cons, Bool.false_eq_true, if_false, charsToNat]
    rw [if_pos]
    · norm_cast
    · simp only [Bool.and_eq_true, decide_eq_true_eq, List.all_eq_true]
      exact ⟨trivial, fun x hx => hall2 x hx⟩

lemma ofDigits_replicate_zero (b z : ℕ) : Nat.ofDigits b (List.replicate z 0) = 0 := by
  induction z with
  | zero => simp [Nat.ofDigits]
  | succ n ih => simp [List.replicate_succ, Nat.ofDigits_cons, ih]

lemma charsToNat_zeroPad6 (ds : List Char) : charsToNat (zeroPad6 ds) = charsToNat ds := by
  unfold charsToNat zeroPad6
  rw [List.map_append, List.reverse_append, Nat.ofDigits_append]
  have h0 : digVal '0' = 0 := by decide
  have hz : List.map digVal (List.replicate (6 - ds.length) '0') =
      List.replicate (6 - ds.length) 0 := by
    rw [List.map_replicate, h0]
  rw [hz]
  simp [List.reverse_replicate, ofDigits_replicate_zero]

lemma zeroPad6_length {ds : List Char} (h : ds.length ≤ 6) : (zeroPad6 ds).length = 6 := by
  simp [zeroPad6]
  omega

lemma zeroPad6_all_digit (ds : List Char) (hall : ∀ c ∈ ds, isDigitChar c = true) :
    ∀ c ∈ zeroPad6 ds, isDigitChar c = true := by
  intro c hc
  rcases List.mem_append.mp hc with h | h
  · have := List.eq_of_mem_replicate h
    subst this; decide
  · exact hall c h

lemma stodModel_digits (l : List Char) (hne : l ≠ [])
    (hall : ∀ c ∈ l, isDigitChar c = true) :
    stodModel (String.mk l) = some (charsToNat l : ℚ) := by
  cases l with
  | nil => cases hne rfl
  | cons c rest =>
    have hc := hall c (by simp)
    have h1 : ¬(c = '-') := by
      intro h; subst h; exact absurd hc (by decide)
    have h2 : ¬(c = '+') := by
      intro h; subst h; exact absurd hc (by decide)
    unfold stodModel
    simp only [String.mk, h1, h2, if_false]
    exact parseUnsigned_digits _ hne hall

lemma stod_intToDecString (z : ℤ) : stodModel (intToDecString z) = some ((z : ℚ)) := by
  unfold intToDecString
  by_cases hneg : z < 0
  · rw [if_pos hneg]
    have hdata : ("-" ++ natDecString z.natAbs).data = '-' :: natToDecChars z.natAbs := rfl
    unfold stodModel
    rw [hdata]
    simp only [if_pos rfl]
    rw [parseUnsigned_digits _ (natToDecChars_ne_nil _) (natToDecChars_all_digit _),
      charsToNat_natToDecChars]
    have : ((z.natAbs : ℕ) : ℚ) = -(z : ℚ) := by
      rw [Int.cast_natAbs, abs_of_neg hneg]
      push_cast
      ring
    simp [this]
  · rw [if_neg hneg]
    rw [natDecString, stodModel_digits _ (natToDecChars_ne_nil _) (natToDecChars_all_digit _),
      charsToNat_natToDecChars]
    have : ((z.natAbs : ℕ) : ℚ) = (z : ℚ) := by
      rw [Int.cast_natAbs, abs_of_nonneg (le_of_not_lt hneg)]
    rw [this]

lemma parse_intfrac (a : ℕ) :
    (charsToNat (natToDecChars (a / 1000000)) : ℚ) +
      (charsToNat (zeroPad6 (natToDecChars (a % 1000000))) : ℚ) /
        (10 : ℚ) ^ (zeroPad6 (natToDecChars (a % 1000000))).length = (a : ℚ) / 1000000 := by
  have hlen : (zeroPad6 (natToDecChars (a % 1000000))).length = 6 :=
    zeroPad6_length (natToDecChars_length_le (Nat.mod_lt _ (by norm_num)))
  rw [hlen, charsToNat_natToDecChars, charsToNat_zeroPad6, charsToNat_natToDecChars]
  have h10 : (10 : ℚ) ^ 6 = 1000000 := by norm_num
  rw [h10]
  have hdm : (a : ℚ) = 1000000 * ((a / 1000000 : ℕ) : ℚ) + ((a % 1000000 : ℕ) : ℚ) := by
    exact_mod_cast (Nat.div_add_mod a 1000000).symm
  rw [hdm]
  ring

lemma stod_fixed6 (q : ℚ) (hden : (q * 1000000).den = 1) :
    stodModel (fixed6 q) = some q := by
  have hq : ((q * 1000000).num : ℚ) = q * 1000000 :=
    Rat.coe_int_num_of_den_eq_one hden
  set k : ℤ := (q * 1000000).num with hk
  have habs : |q| * 1000000 = ((k.natAbs : ℕ) : ℚ) := by
    have h1 : |q| * 1000000 = |q * 1000000| := by
      rw [abs_mul]
      norm_num
    rw [h1, ← hq, ← Int.cast_abs]
    exact (Nat.cast_natAbs (α := ℚ) k).symm
  have ha : (round (|q| * 1000000)).toNat = k.natAbs := by
    rw [habs, round_natCast, Int.toNat_natCast]
  have hvq : ((k.natAbs : ℕ) : ℚ) / 1000000 = |q| := by
    rw [← habs]
    field_simp
  have hfrac := parse_intfrac k.natAbs
  have hL1ne := natToDecChars_ne_nil (k.natAbs / 1000000)
  have hL1all := natToDecChars_all_digit (k.natAbs / 1000000)
  have hL2all := zeroPad6_all_digit _ (natToDecChars_all_digit (k.natAbs % 1000000))
  unfold fixed6
  rw [ha]
  by_cases hneg : q < 0
  · rw [if_pos hneg]
    have hdata : ("-" ++ natDecString (k.natAbs / 1000000) ++ "." ++
        String.mk (zeroPad6 (natToDecChars (k.natAbs % 1000000)))).data =
        '-' :: (natToDecChars (k.natAbs / 1000000) ++
          '.' :: zeroPad6 (natToDecChars (k.natAbs % 1000000))) := by
      simp [natDecString, String.mk]
    unfold stodModel
    rw [hdata]
    simp only [if_pos rfl]
    rw [parseUnsigned_digits_frac _ _ hL1ne hL1all hL2all, hfrac]
    have : ((k.natAbs : ℕ) : ℚ) / 1000000 = -q := by
      rw [hvq, abs_of_neg hneg]
    simp [this]
  · rw [if_neg hneg]
    have hdata : (("" : String) ++ natDecString (k.natAbs / 1000000) ++ "." ++
        String.mk (zeroPad6 (natToDecChars (k.natAbs % 1000000)))).data =
        natToDecChars (k.natAbs / 1000000) ++
          '.' :: zeroPad6 (natToDecChars (k.natAbs % 1000000)) := by
      simp [natDecString, String.mk]
    obtain ⟨c, r, hcr⟩ : ∃ c r, natToDecChars (k.natAbs / 1000000) = c :: r := by
      cases hx : natToDecChars (k.natAbs / 1000000) with
      | nil => exact absurd hx hL1ne
      | cons c r => exact ⟨c, r, rfl⟩
    have hc : isDigitChar c = true := hL1all c (by rw [hcr]; simp)
    have h1 : ¬(c = '-') := by
      intro h; subst h; exact absurd hc (by decide)
    have h2 : ¬(c = '+') := by
      intro h; subst h; exact absurd hc (by decide)
    unfold stodModel
    rw [hdata, hcr]
    simp only [List.cons_append, h1, h2, if_false]
    rw [← List.cons_append, ← hcr,
      parseUnsigned_digits_frac _ _ hL1ne hL1all hL2all, hfrac]
    have : ((k.natAbs : ℕ) : ℚ) / 1000000 = q := by
      rw [hvq, abs_of_nonneg (le_of_not_lt hneg)]
    rw [this]

lemma stod_numberToString (q : ℚ) (hden : (q * 1000000).den = 1) :
    stodModel (numberToString q) = some q := by
  unfold numberToString
  by_cases hint : q = ((truncD q : ℤ) : ℚ)
  · rw [if_pos hint, stod_intToDecString, ← hint]
  · rw [if_neg hint]
    exact stod_fixed6 q hden

/-! ### Lexer (src/src/lexer/lexer.cpp)

The scanner walks the character list left to right; `line`/`column`
mirror the `Lexer` fields (both start at 1; `advance()` increments
`column`, a newline increments `line` and resets `column` to 0).  The
character consumed by each loop iteration comes first in the pattern, so
the whole scan is structurally recursive on a fuel that the wrapper sets
to the source length plus one. -/

/-- `TokenUtils::keywords` (src/src/lexer/lexer.cpp lines 4-43),
including the quirk that `"set"` maps to LET. -/
def keywords : List (String × TokenType) :=
  [("and", .AND), ("class", .CLASS), ("else", .ELSE), ("false", .FALSE),
   ("for", .FOR), ("function", .FUNCTION), ("if", .IF), ("nil", .NIL),
   ("or", .OR), ("print", .PRINT), ("return", .RETURN), ("super", .SUPER),
   ("this", .THIS), ("true", .TRUE), ("var", .VAR), ("while", .WHILE),
   ("set", .LET), ("break", .BREAK), ("continue", .CONTINUE),
   ("import", .IMPORT_KW), ("from", .FROM), ("as", .AS), ("try", .TRY),
   ("catch", .CATCH), ("finally", .FINALLY), ("throw", .THROW),
   ("lambda", .LAMBDA), ("switch", .SWITCH), ("case", .CASE),
   ("default", .DEFAULT), ("extends", .EXTENDS), ("static", .STATIC),
   ("private", .PRIVATE), ("public", .PUBLIC), ("protected", .PROTECTED),
   ("const", .CONST), ("async", .ASYNC), ("await", .AWAIT)]

/-- `TokenUtils::getKeywordType`. -/
def getKeywordType (text : String) : TokenType :=
  match keywords.find? (fun p => p.1 = text) with
  | some p => p.2
  | none => .IDENTIFIER

/-- `Lexer::isDigit`. -/
def lexerIsDigit (c : Char) : Bool := 48 ≤ c.toNat && c.toNat ≤ 57

/-- `Lexer::isAlpha`. -/
def lexerIsAlpha (c : Char) : Bool :=
  (97 ≤ c.toNat && c.toNat ≤ 122) || (65 ≤ c.toNat && c.toNat ≤ 90) || c = '_'

/-- `Lexer::isAlphaNumeric`. -/
def lexerIsAlphaNumeric (c : Char) : Bool := lexerIsAlpha c || lexerIsDigit c

/-- The decoding in `Lexer::string` of the character after a backslash. -/
def escapeChar (e : Char) : Char :=
  if e = 'n' then Char.ofNat 10
  else if e = 't' then Char.ofNat 9
  else if e = 'r' then Char.ofNat 13
  else e

/-- `Lexer::string` after the opening quote: returns the raw and decoded
contents on success, or the `Unterminated string` diagnostic; also the
remaining input and updated line/column.  (When a backslash is the final
character the C++ reads the string's terminating NUL and then hits
end-of-input; the model drops the NUL from the decoded value, which no
emitted token ever contains.) -/
def lexStringAux : List Char → Int → Int → List Char → List Char →
    (Option (List Char × List Char) × Option LexErr × List Char × Int × Int)
  | [], line, col, _, _ =>
      (none, some ⟨line, col, "Unterminated string"⟩, [], line, col)
  | c :: r, line, col, raw, value =>
    if c = Char.ofNat 34 then (some (raw, value), none, r, line, col + 1)
    else if c = Char.ofNat 10 then
      lexStringAux r (line + 1) 1 (raw ++ [c]) (value ++ [c])
    else if c = Char.ofNat 92 then
      match r with
      | [] => (none, some ⟨line, col + 2, "Unterminated string"⟩, [], line, col + 2)
      | e :: r2 =>
        lexStringAux r2 line (col + 2) (raw ++ [c, e]) (value ++ [escapeChar e])
    else lexStringAux r line (col + 1) (raw ++ [c]) (value ++ [c])

/-- The block-comment loop of `Lexer::scanTokens` (case `/` then `*`). -/
def skipBlockComment : List Char → Int → Int → (List Char × Int × Int)
  | [], line, col => ([], line, col)
  | '*' :: '/' :: r, line, col => (r, line, col + 2)
  | '\n' :: r, line, _ => skipBlockComment r (line + 1) 1
  | _ :: r, line, col => skipBlockComment r line (col + 1)

/-- One token record as `Lexer::addToken` builds it: the column stored is
the column after the lexeme minus the lexeme length. -/
def mkTok (tt : TokenType) (lex : List Char) (lit : String) (line col : Int) : Token :=
  ⟨tt, String.mk lex, lit, line, col⟩

/-- The scanning loop of `Lexer::scanTokens` (src/src/lexer/lexer.cpp
lines 100-219): produces the tokens and diagnostics of the remaining
input together with the final line/column.  `col` is the column value
before this iteration's `advance()`. -/
def scanLoop : ℕ → List Char → Int → Int → (List Token × List LexErr × Int × Int)
  | 0, _, line, col => ([], [], line, col)
  | _ + 1, [], line, col => ([], [], line, col)
  | f + 1, c :: rest, line, col =>
    let step : List Token × List LexErr × List Char × Int × Int :=
      if c = '(' then ([mkTok .LEFT_PAREN [c] "" line col], [], rest, line, col + 1)
      else if c = ')' then ([mkTok .RIGHT_PAREN [c] "" line col], [], rest, line, col + 1)
      else if c = Char.ofNat 123 then ([mkTok .LEFT_BRACE [c] "" line col], [], rest, line, col + 1)
      else if c = Char.ofNat 125 then ([mkTok .RIGHT_BRACE [c] "" line col], [], rest, line, col + 1)
      else if c = '[' then ([mkTok .LEFT_BRACKET [c] "" line col], [], rest, line, col + 1)
      else if c = ']' then ([mkTok .RIGHT_BRACKET [c] "" line col], [], rest, line, col + 1)
      else if c = ',' then ([mkTok .COMMA [c] "" line col], [], rest, line, col + 1)
      else if c = '.' then ([mkTok .DOT [c] "" line col], [], rest, line, col + 1)
      else if c = ';' then ([mkTok .SEMICOLON [c] "" line col], [], rest, line, col + 1)
      else if c = ':' then ([mkTok .COLON [c] "" line col], [], rest, line, col + 1)
      else if c = '%' then ([mkTok .PERCENT [c] "" line col], [], rest, line, col + 1)
      else if c = '^' then ([mkTok .CARET [c] "" line col], [], rest, line, col + 1)
      else if c = '&' then ([mkTok .AMPERSAND [c] "" line col], [], rest, line, col + 1)
      else if c = '|' then ([mkTok .PIPE [c] "" line col], [], rest, line, col + 1)
      else if c = '~' then ([mkTok .TILDE [c] "" line col], [], rest, line, col + 1)
      else if c = '?' then ([mkTok .QUESTION [c] "" line col], [], rest, line, col + 1)
      else if c = '@' then ([mkTok .AT [c] "" line col], [], rest, line, col + 1)
      else if c = '-' then
        match rest with
        | '-' :: r2 => ([mkTok .MINUS_MINUS [c, '-'] "" line col], [], r2, line, col + 2)
        | '=' :: r2 => ([mkTok .MINUS_EQUAL [c, '='] "" line col], [], r2, line, col + 2)
        | '>' :: r2 => ([mkTok .ARROW [c, '>'] "" line col], [], r2, line, col + 2)
        | _ => ([mkTok .MINUS [c] "" line col], [], rest, line, col + 1)
      else if c = '+' then
        match rest with
        | '+' :: r2 => ([mkTok .PLUS_PLUS [c, '+'] "" line col], [], r2, line, col + 2)
        | '=' :: r2 => ([mkTok .PLUS_EQUAL [c, '='] "" line col], [], r2, line, col + 2)
        | _ => ([mkTok .PLUS [c] "" line col], [], rest, line, col + 1)
      else if c = '*' then
        match rest with
        | '*' :: r2 => ([mkTok .STAR_STAR [c, '*'] "" line col], [], r2, line, col + 2)
        | '=' :: r2 => ([mkTok .STAR_EQUAL [c, '='] "" line col], [], r2, line, col + 2)
        | _ => ([mkTok .STAR [c] "" line col], [], rest, line, col + 1)
      else if c = '!' then
        match rest with
        | '=' :: r2 => ([mkTok .BANG_EQUAL [c, '='] "" line col], [], r2, line, col + 2)
        | _ => ([mkTok .BANG [c] "" line col], [], rest, line, col + 1)
      else if c = '=' then
        match rest with
        | '=' :: r2 => ([mkTok .EQUAL_EQUAL [c, '='] "" line col], [], r2, line, col + 2)
        | _ => ([mkTok .EQUAL [c] "" line col], [], rest, line, col + 1)
      else if c = '<' then
        match rest with
        | '=' :: r2 => ([mkTok .LESS_EQUAL [c, '='] "" line col], [], r2, line, col + 2)
        | '<' :: r2 => ([mkTok .LEFT_SHIFT [c, '<'] "" line col], [], r2, line, col + 2)
        | _ => ([mkTok .LESS [c] "" line col], [], rest, line, col + 1)
      else if c = '>' then
        match rest with
        | '=' :: r2 => ([mkTok .GREATER_EQUAL [c, '='] "" line col], [], r2, line, col + 2)
        | '>' :: r2 => ([mkTok .RIGHT_SHIFT [c, '>'] "" line col], [], r2, line, col + 2)
        | _ => ([mkTok .GREATER [c] "" line col], [], rest, line, col + 1)
      else if c = '/' then
        match rest with
        | '/' :: r2 =>
          let skipped := r2.takeWhile (fun ch => ch != '\n')
          ([], [], r2.drop skipped.length, line, col + 2 + (skipped.length : Int))
        | '*' :: r2 =>
          let res := skipBlockComment r2 line (col + 2)
          ([], [], res.1, res.2.1, res.2.2)
        | '=' :: r2 => ([mkTok .SLASH_EQUAL [c, '='] "" line col], [], r2, line, col + 2)
        | _ => ([mkTok .SLASH [c] "" line col], [], rest, line, col + 1)
      else if c = ' ' || c = Char.ofNat 13 || c = Char.ofNat 9 then
        ([], [], rest, line, col + 1)
      else if c = Char.ofNat 10 then
        ([mkTok .NEWLINE [c] "" line col], [], rest, line + 1, 0)
      else if c = Char.ofNat 34 then
        match lexStringAux rest line (col + 1) [] [] with
        | (some (raw, value), _, rest', line', col') =>
          ([⟨.STRING, String.mk (c :: raw ++ [c]), String.mk value, line',
             col' - ((raw.length : Int) + 2)⟩], [], rest', line', col')
        | (none, some e, rest', line', col') => ([], [e], rest', line', col')
        | (none, none, rest', line', col') => ([], [], rest', line', col')
      else if lexerIsDigit c then
        let d1 := rest.takeWhile lexerIsDigit
        let r1 := rest.drop d1.length
        match r1 with
        | '.' :: d :: _ =>
          if lexerIsDigit d then
            let d2 := (r1.drop 1).takeWhile lexerIsDigit
            let text := c :: d1 ++ '.' :: d2
            ([mkTok .NUMBER text (String.mk text) line col], [],
             (r1.drop 1).drop d2.length, line, col + (text.length : Int))
          else
            let text := c :: d1
            ([mkTok .NUMBER text (String.mk text) line col], [], r1, line,
             col + (text.length : Int))
        | _ =>
          let text := c :: d1
          ([mkTok .NUMBER text (String.mk text) line col], [], r1, line,
           col + (text.length : Int))
      else if lexerIsAlpha c then
        let tail := rest.takeWhile lexerIsAlphaNumeric
        let text := c :: tail
        ([mkTok (getKeywordType (String.mk text)) text "" line col], [],
         rest.drop tail.length, line, col + (text.length : Int))
      else
        ([], [⟨line, col + 1, "Unexpected character: " ++ String.mk [c]⟩],
         rest, line, col + 1)
    let next := scanLoop f step.2.2.1 step.2.2.2.1 step.2.2.2.2
    (step.1 ++ next.1, step.2.1 ++ next.2.1, next.2.2)

/-- `Lexer::scanTokens`: run the scan and append the end-of-input token
(src/src/lexer/lexer.cpp line 221). -/
def scanTokens (source : String) : List Token × List LexErr :=
  let r := scanLoop (source.data.length + 1) source.data 1 1
  (r.1 ++ [⟨.EOF_TOKEN, "", "", r.2.2.1, r.2.2.2⟩], r.2.1)

/-! ### AST (src/src/parser/ast.hpp)

Tokens inside AST nodes carry only the information the interpreter uses:
identifier tokens become their lexeme strings, operator tokens their
`TokenType`. -/

mutual

/-- Expression nodes (src/src/parser/ast.hpp). -/
inductive Expr where
  | literalExpr (value : Value)
  | groupingExpr (expression : Expr)
  | unaryExpr (op : TokenType) (right : Expr)
  | binaryExpr (left : Expr) (op : TokenType) (right : Expr)
  | ternaryExpr (condition thenExpr elseExpr : Expr)
  | variableExpr (name : String)
  | assignExpr (name : String) (value : Expr)
  | callExpr (callee : Expr) (arguments : List Expr)
  | getExpr (object : Expr) (name : String)
  | setExpr (object : Expr) (name : String) (value : Expr)
  | thisExpr
  | superExpr (method : String)
  | lambdaExpr (params : List String) (body : List Stmt)
  | listExpr (elements : List Expr)
  | indexExpr (object : Expr) (index : Expr)

/-- Statement nodes (src/src/parser/ast.hpp). -/
inductive Stmt where
  | expressionStmt (expression : Expr)
  | printStmt (expression : Expr)
  | varStmt (name : String) (initializer : Option Expr)
  | blockStmt (statements : List Stmt)
  | ifStmt (condition : Expr) (thenBranch : Stmt) (elseBranch : Option Stmt)
  | whileStmt (condition : Expr) (body : Stmt)
  | forStmt (initializer : Option Stmt) (condition : Option Expr)
      (increment : Option Expr) (body : Stmt)
  | functionStmt (name : String) (params : List String) (body : List Stmt)
  | returnStmt (value : Option Expr)
  | classStmt (name : String) (superclass : Option Expr) (methods : List Stmt)
  | importStmt (module : String) (aliasLexeme : String)
  | tryStmt (tryBlock : Stmt) (catchVar : String) (catchBlock : Option Stmt)
      (finallyBlock : Option Stmt)
  | throwStmt (value : Expr)
  | switchStmt (expr : Expr) (cases : List (Expr × Stmt)) (defaultCase : Option Stmt)

end

/-! ### Runtime objects (src/src/runtime/callable.hpp) and interpreter state -/

/-- The payload of a `FunctionStmt` as `Function` retains it. -/
structure FunctionDecl where
  name : String
  params : List String
  body : List Stmt

/-- The ten native builtins bound by the `Interpreter` constructor. -/
inductive NativeFn where
  | printFn | inputFn | lenFn | strFn | numFn | typeFn | clockFn
  | rangeFn | mapFn | filterFn
deriving DecidableEq

/-- The `Callable` family (src/src/runtime/callable.hpp): `Function`,
`Lambda`, `NativeFunction` and `BoundMethod`.  `FocusClass` also derives
from `Callable` in the source, but a `Value` holding a class uses the
separate `shared_ptr<FocusClass>` alternative, so classes live in their
own heap (and `FocusClass::call` is unreachable through
`Interpreter::visitCallExpr` — see the C1 analysis). -/
inductive CallableObj where
  | fn (decl : FunctionDecl) (closure : ℕ)
  | lam (params : List String) (body : List Stmt) (closure : ℕ)
  | native (nf : NativeFn)
  | boundMethod (instv : Value) (decl : FunctionDecl) (closure : ℕ)

/-- `FocusClass`: name, optional superclass handle, method table
(method name to the wrapped `Function`'s declaration and closure). -/
structure ClassData where
  name : String
  superclass : Option ℕ
  methods : List (String × FunctionDecl × ℕ)

/-- `FocusInstance`: class handle and field map. -/
structure InstanceData where
  klass : ℕ
  fields : List (String × Value)

/-- `Environment` (declared in src/src/runtime/environment.hpp, used via
`shared_ptr`): a name-to-value table plus the enclosing scope.
Modelled from the spec: the implementation file is not in the
repository; spec §3/§4.4 give the contract (`define` writes the current
scope; `get`/`assign` walk outward). -/
structure EnvData where
  table : List (String × Value)
  parent : Option ℕ

/-- The interpreter state: the shared-pointer heaps (environments,
callables, classes, instances, lists), the `globals`/`environment`
fields of `Interpreter`, and the accumulated standard output. -/
structure IState where
  envs : List EnvData
  callables : List CallableObj
  classes : List ClassData
  instances : List InstanceData
  lists : List (List Value)
  globalsH : ℕ
  envH : ℕ
  output : List String

/-- Association-list lookup (the `find` of the `unordered_map`s). -/
def lookupAssoc {α : Type} (l : List (String × α)) (n : String) : Option α :=
  match l.find? (fun p => p.1 = n) with
  | some p => some p.2
  | none => none

/-- Overwrite-or-insert (the `operator[]=` of the `unordered_map`s). -/
def insertAssoc {α : Type} (l : List (String × α)) (n : String) (v : α) :
    List (String × α) :=
  if l.any (fun p => p.1 = n) then
    l.map (fun p => if p.1 = n then (n, v) else p)
  else l ++ [(n, v)]

/-- Modelled from the spec: `Environment::define` — "unconditionally
writes to this scope" (spec §4.4). -/
def envDefine (st : IState) (h : ℕ) (n : String) (v : Value) : IState :=
  match st.envs.get? h with
  | some e => { st with envs := st.envs.set h { e with table := insertAssoc e.table n v } }
  | none => st

/-- Modelled from the spec: `Environment::get` — "returns the value from
the nearest enclosing scope defining `name`" (spec §4.4).  The fuel
bounds the parent walk; chains are acyclic (spec invariant I2), so the
heap size plus one always suffices. -/
def envGetFrom (st : IState) : ℕ → ℕ → String → Option Value
  | 0, _, _ => none
  | fl + 1, h, n =>
    match st.envs.get? h with
    | none => none
    | some e =>
      match lookupAssoc e.table n with
      | some v => some v
      | none =>
        match e.parent with
        | some p => envGetFrom st fl p n
        | none => none

/-- `Environment::get` from the interpreter's handle `h`. -/
def envGet (st : IState) (h : ℕ) (n : String) : Option Value :=
  envGetFrom st (st.envs.length + 1) h n

/-- Modelled from the spec: `Environment::assign` — "rewrites the binding
in the nearest enclosing scope that defines `name`", error if none does
(spec §4.4).  Returns `none` for the UndefinedName error. -/
def envAssignFrom (st : IState) : ℕ → ℕ → String → Value → Option IState
  | 0, _, _, _ => none
  | fl + 1, h, n, v =>
    match st.envs.get? h with
    | none => none
    | some e =>
      if e.table.any (fun p => p.1 = n) then
        some { st with envs := st.envs.set h { e with table := insertAssoc e.table n v } }
      else
        match e.parent with
        | some p => envAssignFrom st fl p n v
        | none => none

/-- `Environment::assign` from handle `h`. -/
def envAssign (st : IState) (h : ℕ) (n : String) (v : Value) : Option IState :=
  envAssignFrom st (st.envs.length + 1) h n v

/-- Allocate a fresh `Environment` (a `make_shared<Environment>(parent)`). -/
def allocEnv (st : IState) (parent : Option ℕ) : ℕ × IState :=
  (st.envs.length, { st with envs := st.envs ++ [⟨[], parent⟩] })

/-- Allocate a `Callable` on the heap. -/
def allocCallable (st : IState) (c : CallableObj) : ℕ × IState :=
  (st.callables.length, { st with callables := st.callables ++ [c] })

/-- Allocate a `FocusClass` on the heap. -/
def allocClass (st : IState) (c : ClassData) : ℕ × IState :=
  (st.classes.length, { st with classes := st.classes ++ [c] })

/-- Allocate a `FocusInstance` on the heap
(`make_shared<FocusInstance>(shared_from_this())`). -/
def allocInstance (st : IState) (i : InstanceData) : ℕ × IState :=
  (st.instances.length, { st with instances := st.instances ++ [i] })

/-- Allocate a list (`make_shared<std::vector<Value>>`). -/
def allocList (st : IState) (l : List Value) : ℕ × IState :=
  (st.lists.length, { st with lists := st.lists ++ [l] })

/-- `FocusInstance::set` (src/src/runtime/callable.cpp lines 105-107):
field writes always target the instance's own field map. -/
def instSet (st : IState) (h : ℕ) (n : String) (v : Value) : IState :=
  match st.instances.get? h with
  | some i =>
    { st with instances := st.instances.set h { i with fields := insertAssoc i.fields n v } }
  | none => st

/-- `FocusClass::findMethod` (src/src/runtime/callable.cpp lines 75-86):
own table first, then the superclass chain.  Fuel bounds the walk; the
class heap size plus one suffices for the acyclic chains the evaluator
builds. -/
def findMethod (st : IState) : ℕ → ℕ → String → Option (FunctionDecl × ℕ)
  | 0, _, _ => none
  | fl + 1, h, n =>
    match st.classes.get? h with
    | none => none
    | some cd =>
      match lookupAssoc cd.methods n with
      | some m => some m
      | none =>
        match cd.superclass with
        | some p => findMethod st fl p n
        | none => none

/-- The outcome of one evaluation step.  `val`/`unit`/`vals` are the
normal completions of expressions, statements and argument lists;
`err` is a thrown `RuntimeError` (its source token is dropped — the
model keeps the message, which is all `try`/`catch` and the reporter
use); `ret` is the `ReturnValue` sentinel, which does NOT derive from
`RuntimeError` and so is invisible to `catch (const RuntimeError&)`;
`fatal` is a `std::runtime_error` from a native builtin (also not a
`RuntimeError`); `nofuel` is the model's fuel-exhaustion artifact for
non-terminating executions. -/
inductive Outc where
  | val (v : Value)
  | unit
  | vals (vs : List Value)
  | err (m : String)
  | ret (v : Value)
  | fatal (m : String)
  | nofuel
deriving DecidableEq

/-- The `", "`-joining of `Value::toString` for lists. -/
def strJoin : List String → String
  | [] => ""
  | [s] => s
  | s :: rest => s ++ ", " ++ strJoin rest

/-- `Value::toString` (src/src/runtime/value.cpp lines 57-81): lists
dereference the heap and print elements comma-separated; the class and
instance alternatives fall through every check to `"<unknown>"`.  The
fuel bounds list nesting (a cyclic list makes the C++ recurse forever;
acyclic data needs at most the list-heap size). -/
def toStr (st : IState) : ℕ → Value → String
  | _, .nil => "nil"
  | _, .bool b => if b then "true" else "false"
  | _, .num q => numberToString q
  | _, .str s => s
  | _, .callable _ => "<function>"
  | 0, .list _ => "[]"
  | fl + 1, .list h =>
    match st.lists.get? h with
    | some items => "[" ++ strJoin (items.map (fun v => toStr st fl v)) ++ "]"
    | none => "[]"
  | _, .cls _ => "<unknown>"
  | _, .inst _ => "<unknown>"

/-- `Value::toString` with the fuel the heap size justifies. -/
def valueToString (st : IState) (v : Value) : String :=
  toStr st (st.lists.length + 1) v

/-- `fmod` on the rational model: the remainder of truncated division. -/
def fmodQ (a b : ℚ) : ℚ := a - b * ((truncD (a / b) : ℤ) : ℚ)

/-- `pow(double, double)` restricted to integer exponents (the result for
a fractional exponent is irrational and outside the rational model; no
claim depends on it). -/
def powQ (a b : ℚ) : ℚ :=
  if b = ((truncD b : ℤ) : ℚ) then a ^ (truncD b) else 0

/-- The 32-bit-int conversions of the bitwise cases: both operands pass
through `static_cast<int>` and the result widens back to double.  Shifts
are modelled arithmetically (`x << k` as `x * 2^k`, `x >> k` as floor
division), matching the machine for in-range operands. -/
def intOf (v : Value) : Int := truncD v.asNumber

/-- `Interpreter::visitBinaryExpr` after both operands are evaluated
(src/src/interpreter.cpp lines 67-136).  Note the `AND`/`OR` cases at the
bottom of the switch: both operands have already been evaluated by the
time they run, and they return the decisive operand itself. -/
def evalBinary (st : IState) (op : TokenType) (l r : Value) : Outc :=
  match op with
  | .GREATER =>
    if !(l.isNumber && r.isNumber) then .err "Operands must be numbers"
    else .val (.bool (decide (r.asNumber < l.asNumber)))
  | .GREATER_EQUAL =>
    if !(l.isNumber && r.isNumber) then .err "Operands must be numbers"
    else .val (.bool (decide (r.asNumber ≤ l.asNumber)))
  | .LESS =>
    if !(l.isNumber && r.isNumber) then .err "Operands must be numbers"
    else .val (.bool (decide (l.asNumber < r.asNumber)))
  | .LESS_EQUAL =>
    if !(l.isNumber && r.isNumber) then .err "Operands must be numbers"
    else .val (.bool (decide (l.asNumber ≤ r.asNumber)))
  | .BANG_EQUAL => .val (.bool (!(Value.veq l r)))
  | .EQUAL_EQUAL => .val (.bool (Value.veq l r))
  | .MINUS =>
    if !(l.isNumber && r.isNumber) then .err "Operands must be numbers"
    else .val (.num (l.asNumber - r.asNumber))
  | .PLUS =>
    if l.isNumber && r.isNumber then .val (.num (l.asNumber + r.asNumber))
    else if l.isString || r.isString then
      .val (.str (valueToString st l ++ valueToString st r))
    else .err "Operands must be two numbers or strings"
  | .SLASH =>
    if !(l.isNumber && r.isNumber) then .err "Operands must be numbers"
    else if r.asNumber = 0 then .err "Division by zero"
    else .val (.num (l.asNumber / r.asNumber))
  | .STAR =>
    if !(l.isNumber && r.isNumber) then .err "Operands must be numbers"
    else .val (.num (l.asNumber * r.asNumber))
  | .PERCENT =>
    if !(l.isNumber && r.isNumber) then .err "Operands must be numbers"
    else if r.asNumber = 0 then .err "Modulo by zero"
    else .val (.num (fmodQ l.asNumber r.asNumber))
  | .STAR_STAR =>
    if !(l.isNumber && r.isNumber) then .err "Operands must be numbers"
    else .val (.num (powQ l.asNumber r.asNumber))
  | .LEFT_SHIFT =>
    if !(l.isNumber && r.isNumber) then .err "Operands must be numbers"
    else .val (.num ((intOf l * 2 ^ (intOf r).toNat : ℤ) : ℚ))
  | .RIGHT_SHIFT =>
    if !(l.isNumber && r.isNumber) then .err "Operands must be numbers"
    else .val (.num ((Int.fdiv (intOf l) (2 ^ (intOf r).toNat) : ℤ) : ℚ))
  | .AMPERSAND =>
    if !(l.isNumber && r.isNumber) then .err "Operands must be numbers"
    else .val (.num ((Int.land (intOf l) (intOf r) : ℤ) : ℚ))
  | .PIPE =>
    if !(l.isNumber && r.isNumber) then .err "Operands must be numbers"
    else .val (.num ((Int.lor (intOf l) (intOf r) : ℤ) : ℚ))
  | .CARET =>
    if !(l.isNumber && r.isNumber) then .err "Operands must be numbers"
    else .val (.num ((Int.xor (intOf l) (intOf r) : ℤ) : ℚ))
  | .AND => if !l.isTruthy then .val l else .val r
  | .OR => if l.isTruthy then .val l else .val r
  | _ => .val .nil

/-- `Interpreter::visitUnaryExpr` after the operand is evaluated
(src/src/interpreter.cpp lines 141-158); `~` is two's-complement
negation-minus-one on the truncated int. -/
def evalUnary (op : TokenType) (r : Value) : Outc :=
  match op with
  | .BANG => .val (.bool (!r.isTruthy))
  | .MINUS =>
    if !r.isNumber then .err "Operand must be a number"
    else .val (.num (-r.asNumber))
  | .TILDE =>
    if !r.isNumber then .err "Operand must be a number"
    else .val (.num ((-(intOf r) - 1 : ℤ) : ℚ))
  | _ => .val .nil

/-- `arity()` across the `Callable` family; `-1` marks variadic natives. -/
def callableArity : CallableObj → Int
  | .fn decl _ => decl.params.length
  | .lam params _ _ => params.length
  | .native nf =>
    match nf with
    | .printFn => -1
    | .inputFn => -1
    | .lenFn => 1
    | .strFn => 1
    | .numFn => 1
    | .typeFn => 1
    | .clockFn => 0
    | .rangeFn => -1
    | .mapFn => 2
    | .filterFn => 2
  | .boundMethod _ decl _ => decl.params.length

/-- Positional parameter binding in `Function::call`/`Lambda::call`/
`BoundMethod::call`: `define(params[i], arguments[i])` for each `i`.  The
zip mirrors the loop; the upstream arity check makes the lengths equal
for every call the evaluator performs. -/
def bindParams (st : IState) (h : ℕ) (params : List String) (args : List Value) : IState :=
  (params.zip args).foldl (fun s pa => envDefine s h pa.1 pa.2) st

/-- The iteration count of `createRangeFunction`'s loop
(`for (double i = start; step > 0 ? i < stop : i > stop; i += step)`),
exact on the rational model. -/
def rangeCount (start stop step : ℚ) : ℕ :=
  if (0 < step ∧ start < stop) ∨ (step < 0 ∧ stop < start) then
    (Int.ceil ((stop - start) / step)).toNat
  else 0

/-- The element list `createRangeFunction` builds. -/
def rangeList (start step : ℚ) (n : ℕ) : List Value :=
  (List.range n).map (fun k => Value.num (start + step * k))

/-- The space-joining of `createPrintFunction`. -/
def strJoinSpace : List String → String
  | [] => ""
  | [s] => s
  | s :: rest => s ++ " " ++ strJoinSpace rest

/-- The host-side native builtins that do not call back into the
evaluator (src/src/runtime/native_functions.cpp).  They throw
`std::runtime_error` on bad input — with `catch (const RuntimeError&)`
clauses everywhere, those escape every in-language handler, which
`.fatal` models.  `input` and `clock` read the host (stdin, the clock)
and are marked `.fatal` as outside-the-model effects; no claim involves
them.  `map` and `filter` call back into the evaluator and are handled
inside `run`. -/
def callNative (st : IState) (nf : NativeFn) (args : List Value) : Outc × IState :=
  match nf with
  | .printFn =>
    (.val .nil, { st with output := st.output ++ [strJoinSpace (args.map (valueToString st))] })
  | .inputFn => (.fatal "input reads host stdin (outside the model)", st)
  | .lenFn =>
    if args.length ≠ 1 then (.fatal "len() takes exactly one argument", st)
    else
      match args with
      | [a] =>
        if a.isString then (.val (.num (a.asString.length : ℚ)), st)
        else if a.isList then
          match st.lists.get? a.asListH with
          | some items => (.val (.num (items.length : ℚ)), st)
          | none => (.fatal "dangling list handle", st)
        else (.fatal ("Object of type '" ++ a.getType ++ "' has no len()"), st)
      | _ => (.fatal "len() takes exactly one argument", st)
  | .strFn =>
    if args.length ≠ 1 then (.fatal "str() takes exactly one argument", st)
    else
      match args with
      | [a] => (.val (.str (valueToString st a)), st)
      | _ => (.fatal "str() takes exactly one argument", st)
  | .numFn =>
    if args.length ≠ 1 then (.fatal "num() takes exactly one argument", st)
    else
      match args with
      | [a] =>
        if a.isNumber then (.val a, st)
        else if a.isString then
          match stodModel a.asString with
          | some q => (.val (.num q), st)
          | none => (.fatal ("Cannot convert '" ++ a.asString ++ "' to number"), st)
        else (.fatal ("Cannot convert " ++ a.getType ++ " to number"), st)
      | _ => (.fatal "num() takes exactly one argument", st)
  | .typeFn =>
    if args.length ≠ 1 then (.fatal "type() takes exactly one argument", st)
    else
      match args with
      | [a] => (.val (.str a.getType), st)
      | _ => (.fatal "type() takes exactly one argument", st)
  | .clockFn => (.fatal "clock reads the host clock (outside the model)", st)
  | .rangeFn =>
    if args.length < 1 || 3 < args.length then
      (.fatal "range() takes 1 to 3 arguments", st)
    else if !(args.all Value.isNumber) then
      (.fatal "std::bad_variant_access in range()", st)
    else
      let start : ℚ := if args.length = 1 then 0 else (args.headD .nil).asNumber
      let stop : ℚ :=
        if args.length = 1 then (args.headD .nil).asNumber
        else ((args.drop 1).headD .nil).asNumber
      let step : ℚ := if args.length = 3 then ((args.drop 2).headD .nil).asNumber else 1
      if step = 0 ∧ start < stop then
        (.fatal "range() with zero step diverges", st)
      else
        let (h, st1) := allocList st (rangeList start step (rangeCount start stop step))
        (.val (.list h), st1)
  | .mapFn => (.fatal "map handled in run", st)
  | .filterFn => (.fatal "filter handled in run", st)

/-- `Interpreter::visitClassStmt` after the superclass value is settled
(src/src/interpreter.cpp lines 359-383): pre-define the name as nil,
build the method table from the `FunctionStmt` members (the
`dynamic_cast` filter), construct the class, and `assign` the name. -/
def execClassDecl (n : String) (supH : Option ℕ) (methods : List Stmt) (st : IState) :
    Outc × IState :=
  let st1 := envDefine st st.envH n .nil
  let ms := methods.filterMap (fun m =>
    match m with
    | .functionStmt mn mps mb => some (mn, (⟨mn, mps, mb⟩ : FunctionDecl), st1.envH)
    | _ => none)
  let hs := allocClass st1 ⟨n, supH, ms⟩
  match envAssign hs.2 hs.2.envH n (.cls hs.1) with
  | some st3 => (.unit, st3)
  | none => (.err ("Undefined variable '" ++ n ++ "'"), hs.2)

/-- An evaluation request: the mutually recursive entry points of the
interpreter flattened into one type so the evaluator is a single
function, structurally recursive on fuel (and therefore reducible by the
kernel on concrete programs).  `expr`/`stmt` are `evaluate`/`execute`;
`seq` is the statement loop shared by `interpret` and `executeBlock`;
`block` is `Interpreter::executeBlock` proper (environment switch and
restore); `callc` is `Callable::call` dispatch; `args` is the
argument-evaluation loop of `visitCallExpr` (also the element loop of
`visitListExpr`); `forLoop` is the iteration loop of `visitForStmt`;
`switchCases` is the case loop of `visitSwitchStmt`; `mapItems` and
`filterItems` are the loops inside the `map`/`filter` natives. -/
inductive Req where
  | expr (e : Expr)
  | stmt (s : Stmt)
  | seq (ss : List Stmt)
  | block (ss : List Stmt) (envH : ℕ)
  | callc (c : CallableObj) (args : List Value)
  | args (es : List Expr)
  | forLoop (condition : Option Expr) (increment : Option Expr) (body : Stmt)
  | switchCases (disc : Value) (cs : List (Expr × Stmt)) (dflt : Option Stmt)
  | mapItems (c : CallableObj) (items : List Value)
  | filterItems (c : CallableObj) (items : List Value)

/-- The evaluator: a direct translation of the visitor methods in
src/src/interpreter.cpp and the `call` methods in
src/src/runtime/callable.cpp.  Every C++ exception becomes an `Outc`
constructor carried with the (not rolled back) state; every
`environment` switch is restored exactly where the C++ restores it.
Each recursive call spends one unit of fuel, so the recursion is
structural and concrete runs reduce inside the kernel.  The exact text
of the UndefinedName message is modelled from the spec
("Undefined variable '<name>'"), since Environment's implementation
file is not in the repository; no claim depends on its wording. -/
def run : ℕ → Req → IState → Outc × IState
  | 0, _, st => (.nofuel, st)
  | f + 1, req, st =>
    match req with
    | .expr e =>
      match e with
      | .literalExpr v => (.val v, st)
      | .groupingExpr e1 => run f (.expr e1) st
      | .unaryExpr op right =>
        match run f (.expr right) st with
        | (.val rv, st1) => (evalUnary op rv, st1)
        | other => other
      | .binaryExpr l op r0 =>
        -- both operands are evaluated before the operator switch
        match run f (.expr l) st with
        | (.val lv, st1) =>
          match run f (.expr r0) st1 with
          | (.val rv, st2) => (evalBinary st2 op lv rv, st2)
          | other => other
        | other => other
      | .ternaryExpr c t e1 =>
        match run f (.expr c) st with
        | (.val cv, st1) =>
          if cv.isTruthy then run f (.expr t) st1 else run f (.expr e1) st1
        | other => other
      | .variableExpr n =>
        match envGet st st.envH n with
        | some v => (.val v, st)
        | none => (.err ("Undefined variable '" ++ n ++ "'"), st)
      | .assignExpr n e1 =>
        match run f (.expr e1) st with
        | (.val v, st1) =>
          match envAssign st1 st1.envH n v with
          | some st2 => (.val v, st2)
          | none => (.err ("Undefined variable '" ++ n ++ "'"), st1)
        | other => other
      | .callExpr callee arguments =>
        match run f (.expr callee) st with
        | (.val cv, st1) =>
          match run f (.args arguments) st1 with
          | (.vals avs, st2) =>
            if !cv.isCallable then
              (.err "Can only call functions and classes", st2)
            else
              match st2.callables.get? cv.asCallableH with
              | none => (.fatal "dangling callable handle", st2)
              | some c =>
                if callableArity c ≠ -1 ∧ (avs.length : Int) ≠ callableArity c then
                  (.err ("Expected " ++ intToDecString (callableArity c) ++
                    " arguments but got " ++ intToDecString (avs.length : Int)), st2)
                else run f (.callc c avs) st2
          | other => other
        | other => other
      | .getExpr obj name =>
        match run f (.expr obj) st with
        | (.val ov, st1) =>
          if ov.isInstance then
            match st1.instances.get? ov.asInstH with
            | none => (.fatal "dangling instance handle", st1)
            | some idata =>
              match lookupAssoc idata.fields name with
              | some v => (.val v, st1)
              | none =>
                match findMethod st1 (st1.classes.length + 1) idata.klass name with
                | some m =>
                  let hs := allocCallable st1 (.boundMethod ov m.1 m.2)
                  (.val (.callable hs.1), hs.2)
                | none => (.err ("Undefined property '" ++ name ++ "'"), st1)
          else (.err "Only instances have properties", st1)
        | other => other
      | .setExpr obj name v =>
        match run f (.expr obj) st with
        | (.val ov, st1) =>
          if !ov.isInstance then (.err "Only instances have fields", st1)
          else
            match run f (.expr v) st1 with
            | (.val vv, st2) => (.val vv, instSet st2 ov.asInstH name vv)
            | other => other
        | other => other
      | .thisExpr =>
        match envGet st st.envH "this" with
        | some v => (.val v, st)
        | none => (.err "Undefined variable 'this'", st)
      | .superExpr _ => (.err "Super not fully implemented", st)
      | .lambdaExpr params body =>
        let hs := allocCallable st (.lam params body st.envH)
        (.val (.callable hs.1), hs.2)
      | .listExpr elements =>
        match run f (.args elements) st with
        | (.vals vs, st1) =>
          let hs := allocList st1 vs
          (.val (.list hs.1), hs.2)
        | other => other
      | .indexExpr o i =>
        match run f (.expr o) st with
        | (.val ov, st1) =>
          match run f (.expr i) st1 with
          | (.val iv, st2) =>
            if !ov.isList then (.err "Only lists can be indexed", st2)
            else if !iv.isNumber then (.err "List index must be a number", st2)
            else
              match st2.lists.get? ov.asListH with
              | none => (.fatal "dangling list handle", st2)
              | some items =>
                let idx := truncD iv.asNumber
                if idx < 0 ∨ (items.length : Int) ≤ idx then
                  (.err "List index out of range", st2)
                else (.val ((items.get? idx.toNat).getD .nil), st2)
          | other => other
        | other => other
    | .stmt s =>
      match s with
      | .expressionStmt e =>
        match run f (.expr e) st with
        | (.val _, st1) => (.unit, st1)
        | other => other
      | .printStmt e =>
        match run f (.expr e) st with
        | (.val v, st1) => (.unit, { st1 with output := st1.output ++ [valueToString st1 v] })
        | other => other
      | .varStmt n initializer =>
        match initializer with
        | none => (.unit, envDefine st st.envH n .nil)
        | some e =>
          match run f (.expr e) st with
          | (.val v, st1) => (.unit, envDefine st1 st1.envH n v)
          | other => other
      | .blockStmt ss =>
        let hs := allocEnv st (some st.envH)
        run f (.block ss hs.1) hs.2
      | .ifStmt c t e1 =>
        match run f (.expr c) st with
        | (.val cv, st1) =>
          if cv.isTruthy then run f (.stmt t) st1
          else
            match e1 with
            | some s2 => run f (.stmt s2) st1
            | none => (.unit, st1)
        | other => other
      | .whileStmt c body =>
        match run f (.expr c) st with
        | (.val cv, st1) =>
          if cv.isTruthy then
            match run f (.stmt body) st1 with
            | (.unit, st2) => run f (.stmt (.whileStmt c body)) st2
            | other => other
          else (.unit, st1)
        | other => other
      | .forStmt initializer c inc body =>
        -- visitForStmt: fresh scope, try { init; loop } with the
        -- environment restored on the normal path and in the catch-all
        let previous := st.envH
        let hs := allocEnv st (some st.envH)
        let st2 := { hs.2 with envH := hs.1 }
        let r1 :=
          match initializer with
          | some i => run f (.stmt i) st2
          | none => (.unit, st2)
        let r2 :=
          match r1 with
          | (.unit, st3) => run f (.forLoop c inc body) st3
          | other => other
        (r2.1, { r2.2 with envH := previous })
      | .functionStmt n params body =>
        let hs := allocCallable st (.fn ⟨n, params, body⟩ st.envH)
        (.unit, envDefine hs.2 hs.2.envH n (.callable hs.1))
      | .returnStmt value =>
        match value with
        | none => (.ret .nil, st)
        | some e =>
          match run f (.expr e) st with
          | (.val v, st1) => (.ret v, st1)
          | other => other
      | .classStmt n superclass methods =>
        match superclass with
        | none => execClassDecl n none methods st
        | some se =>
          match run f (.expr se) st with
          | (.val sv, st1) =>
            if !sv.isClass then (.err "Superclass must be a class", st1)
            else execClassDecl n (some sv.asClsH) methods st1
          | other => other
      | .importStmt module aliasLexeme =>
        let st1 := envDefine st st.envH module (.str "imported_module")
        (.unit, if aliasLexeme = "" then st1
                else envDefine st1 st1.envH aliasLexeme (.str "imported_module"))
      | .tryStmt tb cv cb fb =>
        -- visitTryStmt: catch (const RuntimeError&) with the catch body
        -- guarded by `if (catchBlock != nullptr)`, then the
        -- unconditional `if (finallyBlock != nullptr)` line
        let r1 := run f (.stmt tb) st
        let r2 :=
          match r1 with
          | (.err m, st1) =>
            match cb with
            | some cstmt =>
              let hs := allocEnv st1 (some st1.envH)
              let st3 := if cv = "" then hs.2 else envDefine hs.2 hs.1 cv (.str m)
              let previous := st3.envH
              let rc := run f (.stmt cstmt) { st3 with envH := hs.1 }
              (rc.1, { rc.2 with envH := previous })
            | none => (.unit, st1)   -- the error was caught and silently dropped
          | other => other
        match r2 with
        | (.unit, st5) =>
          match fb with
          | some fstmt => run f (.stmt fstmt) st5
          | none => (.unit, st5)
        | other => other   -- an error, return, or fatal skips the finally line
      | .throwStmt e =>
        match run f (.expr e) st with
        | (.val v, st1) => (.err (valueToString st1 v), st1)
        | other => other
      | .switchStmt e cs dflt =>
        match run f (.expr e) st with
        | (.val sv, st1) => run f (.switchCases sv cs dflt) st1
        | other => other
    | .seq ss =>
      match ss with
      | [] => (.unit, st)
      | s :: rest =>
        match run f (.stmt s) st with
        | (.unit, st1) => run f (.seq rest) st1
        | other => other
    | .block ss h =>
      -- executeBlock: switch to the new environment, run, and restore on
      -- the normal path and in the catch-all rethrow path alike
      let previous := st.envH
      match run f (.seq ss) { st with envH := h } with
      | (.unit, st1) => (.unit, { st1 with envH := previous })
      | (o, st1) => (o, { st1 with envH := previous })
    | .callc c avs =>
      match c with
      | .fn decl closure =>
        let hs := allocEnv st (some closure)
        let st2 := bindParams hs.2 hs.1 decl.params avs
        match run f (.block decl.body hs.1) st2 with
        | (.unit, st3) => (.val .nil, st3)
        | (.ret v, st3) => (.val v, st3)
        | other => other
      | .lam params body closure =>
        let hs := allocEnv st (some closure)
        let st2 := bindParams hs.2 hs.1 params avs
        match run f (.block body hs.1) st2 with
        | (.unit, st3) => (.val .nil, st3)
        | (.ret v, st3) => (.val v, st3)
        | other => other
      | .boundMethod instv decl closure =>
        let hs := allocEnv st (some closure)
        let st2 := envDefine hs.2 hs.1 "this" instv
        let st3 := bindParams st2 hs.1 decl.params avs
        match run f (.block decl.body hs.1) st3 with
        | (.unit, st4) => (.val .nil, st4)
        | (.ret v, st4) => (.val v, st4)
        | other => other
      | .native nf =>
        match nf with
        | .mapFn =>
          if avs.length ≠ 2 then (.fatal "map() takes exactly 2 arguments", st)
          else
            match avs with
            | [fv, lv] =>
              if !fv.isCallable || !lv.isList then
                (.fatal "map() requires a function and a list", st)
              else
                match st.callables.get? fv.asCallableH, st.lists.get? lv.asListH with
                | some fc, some items =>
                  match run f (.mapItems fc items) st with
                  | (.vals vs, st1) =>
                    let hs := allocList st1 vs
                    (.val (.list hs.1), hs.2)
                  | other => other
                | _, _ => (.fatal "dangling handle in map()", st)
            | _ => (.fatal "map() takes exactly 2 arguments", st)
        | .filterFn =>
          if avs.length ≠ 2 then (.fatal "filter() takes exactly 2 arguments", st)
          else
            match avs with
            | [fv, lv] =>
              if !fv.isCallable || !lv.isList then
                (.fatal "filter() requires a function and a list", st)
              else
                match st.callables.get? fv.asCallableH, st.lists.get? lv.asListH with
                | some fc, some items =>
                  match run f (.filterItems fc items) st with
                  | (.vals vs, st1) =>
                    let hs := allocList st1 vs
                    (.val (.list hs.1), hs.2)
                  | other => other
                | _, _ => (.fatal "dangling handle in filter()", st)
            | _ => (.fatal "filter() takes exactly 2 arguments", st)
        | _ => callNative st nf avs
    | .args es =>
      match es with
      | [] => (.vals [], st)
      | e :: rest =>
        match run f (.expr e) st with
        | (.val v, st1) =>
          match run f (.args rest) st1 with
          | (.vals vs, st2) => (.vals (v :: vs), st2)
          | other => other
        | other => other
    | .forLoop c inc body =>
      let condRes : Outc × IState :=
        match c with
        | some ce => run f (.expr ce) st
        | none => (.val (.bool true), st)
      match condRes with
      | (.val cv, st1) =>
        if cv.isTruthy then
          match run f (.stmt body) st1 with
          | (.unit, st2) =>
            match inc with
            | some ie =>
              match run f (.expr ie) st2 with
              | (.val _, st3) => run f (.forLoop c inc body) st3
              | other => other
            | none => run f (.forLoop c inc body) st2
          | other => other
        else (.unit, st1)
      | other => other
    | .switchCases sv cs dflt =>
      match cs with
      | [] =>
        match dflt with
        | some d => run f (.stmt d) st
        | none => (.unit, st)
      | (ce, cbody) :: rest =>
        match run f (.expr ce) st with
        | (.val cv, st1) =>
          if Value.veq sv cv then run f (.stmt cbody) st1
          else run f (.switchCases sv rest dflt) st1
        | other => other
    | .mapItems fc items =>
      match items with
      | [] => (.vals [], st)
      | v :: rest =>
        match run f (.callc fc [v]) st with
        | (.val rv, st1) =>
          match run f (.mapItems fc rest) st1 with
          | (.vals vs, st2) => (.vals (rv :: vs), st2)
          | other => other
        | other => other
    | .filterItems fc items =>
      match items with
      | [] => (.vals [], st)
      | v :: rest =>
        match run f (.callc fc [v]) st with
        | (.val rv, st1) =>
          match run f (.filterItems fc rest) st1 with
          | (.vals vs, st2) =>
            (.vals (if rv.isTruthy then v :: vs else vs), st2)
          | other => other
        | other => other

/-- The state the `Interpreter` constructor builds: a global environment
holding the ten native builtins. -/
def initState : IState :=
  { envs := [⟨[("print", .callable 0), ("input", .callable 1), ("len", .callable 2),
               ("str", .callable 3), ("num", .callable 4), ("type", .callable 5),
               ("clock", .callable 6), ("range", .callable 7), ("map", .callable 8),
               ("filter", .callable 9)], none⟩],
    callables := [.native .printFn, .native .inputFn, .native .lenFn, .native .strFn,
                  .native .numFn, .native .typeFn, .native .clockFn, .native .rangeFn,
                  .native .mapFn, .native .filterFn],
    classes := [], instances := [], lists := [],
    globalsH := 0, envH := 0, output := [] }

/-- `Interpreter::interpret` (src/src/interpreter.cpp lines 27-35): run
the statements from the freshly constructed interpreter; a `RuntimeError`
is caught here and reported (the third component).  `ReturnValue` and
`std::runtime_error` are NOT caught by this handler and keep
propagating. -/
def interpret (fuel : ℕ) (statements : List Stmt) : Outc × IState × Option String :=
  match run fuel (.seq statements) initState with
  | (.err m, st) => (.unit, st, some m)
  | (o, st) => (o, st, none)

/-- Observer: read a global variable of the final state (spec-side
definition used only in theorem statements). -/
def readVar (st : IState) (n : String) : Option Value :=
  envGet st st.globalsH n

/-! ### Claim theorems -/

/-- C6 (counterexample): `type` does not return one of the eight
documented strings on a class value — `Value::getType` falls through to
`"unknown"` for the class (and instance) alternatives, and
`createTypeFunction` returns exactly `getType`. -/
theorem C6_type_counterexample :
    (callNative initState .typeFn [Value.cls 0]).1 = .val (.str "unknown") ∧
    (callNative initState .typeFn [Value.inst 0]).1 = .val (.str "unknown") ∧
    "unknown" ∉ ["nil", "boolean", "number", "string", "function", "list",
      "class", "instance"] := by
  decide

/-- C6 (amended): for every value `v`, the native builtin `type(v)`
returns exactly one of the seven strings `"nil"`, `"boolean"`,
`"number"`, `"string"`, `"function"`, `"list"`, `"unknown"`; in
particular it returns `"unknown"` (not `"class"`/`"instance"`) when `v`
holds a class or an instance. -/
theorem C6_type_returns_seven_strings :
    (∀ v : Value, Value.getType v ∈
      ["nil", "boolean", "number", "string", "function", "list", "unknown"]) ∧
    (∀ h : ℕ, Value.getType (Value.cls h) = "unknown") ∧
    (∀ h : ℕ, Value.getType (Value.inst h) = "unknown") ∧
    (∀ st v, callNative st .typeFn [v] = (.val (.str (Value.getType v)), st)) := by
  refine ⟨fun v => ?_, fun h => rfl, fun h => rfl, fun st v => rfl⟩
  cases v <;> simp [Value.getType, Value.isNil, Value.isBool, Value.isNumber,
    Value.isString, Value.isCallable, Value.isList]

/-- C7 (counterexample): a class value does not equal itself under
`Value::operator==` — the variant indices agree but every `is*` check in
the chain is false for the class alternative, so the function falls
through to `return false`; likewise for instances. -/
theorem C7_self_equality_counterexample :
    Value.veq (Value.cls 0) (Value.cls 0) = false ∧
    Value.veq (Value.inst 0) (Value.inst 0) = false := by
  decide

/-- C7 (amended): comparing a value with itself with the equality
operator yields true for the Nil, boolean, number, string, callable and
list variants, and false for the class and instance variants:
`v == v` is exactly the negation of `v` being a class or an instance.
(Numbers are rationals in the model; IEEE NaN, for which `==` is also
false, is outside it.) -/
theorem C7_self_equality :
    ∀ v : Value, Value.veq v v = !(v.isClass || v.isInstance) := by
  intro v
  cases v <;> simp [Value.veq, Value.variantIdx, Value.isNil, Value.isBool,
    Value.isNumber, Value.isString, Value.isCallable, Value.isList,
    Value.isClass, Value.isInstance]

/-- C9 (confirmed): for every input string the token list `scanTokens`
returns ends with the end-of-input token (the loop runs to exhaustion of
the input and the EOF token is appended unconditionally afterwards);
lexical errors — an unknown character, an unterminated string — are
recorded as diagnostics while scanning continues past the offending
character, as the two concrete runs show: `"a$b"` still yields both
identifier tokens around the reported `$`, and an unterminated string
reports its diagnostic while the returned list is still EOF-terminated. -/
theorem C9_scanTokens_eof_and_recovery :
    (∀ src : String, ∃ l c : Int,
      (scanTokens src).1.getLast? = some ⟨.EOF_TOKEN, "", "", l, c⟩) ∧
    scanTokens "a$b" =
      ([⟨.IDENTIFIER, "a", "", 1, 1⟩, ⟨.IDENTIFIER, "b", "", 1, 3⟩,
        ⟨.EOF_TOKEN, "", "", 1, 4⟩],
       [⟨1, 3, "Unexpected character: $"⟩]) ∧
    scanTokens "\"ab" = ([⟨.EOF_TOKEN, "", "", 1, 4⟩],
       [⟨1, 4, "Unterminated string"⟩]) := by
  refine ⟨fun src => ?_, by decide, by decide⟩
  exact ⟨(scanLoop (src.data.length + 1) src.data 1 1).2.2.1,
         (scanLoop (src.data.length + 1) src.data 1 1).2.2.2, by
    simp [scanTokens, List.getLast?_append_cons]⟩

/-- C1 (code bug): evaluating `C()` after `class C: { }` does NOT
construct an instance — it raises the NotCallable runtime error
"Can only call functions and classes", because `Value::isCallable`
covers only the `shared_ptr<Callable>` alternative while a class value
holds the `shared_ptr<FocusClass>` alternative.  `FocusClass::call`
(construction plus `init` invocation) is unreachable dead code.  The
run below shows the reported error and that no instance was ever
allocated. -/
theorem C1_class_call_raises_not_callable :
    (interpret 20 [.classStmt "C" none [],
        .expressionStmt (.callExpr (.variableExpr "C") [])]).2.2 =
      some "Can only call functions and classes" ∧
    (interpret 20 [.classStmt "C" none [],
        .expressionStmt (.callExpr (.variableExpr "C") [])]).2.1.instances.length = 0 := by
  decide

/-- C2 (counterexample): in `var x = 1` then `false and (x = 2)`, the
claim says the right operand is never evaluated, so `x` would still be
`1`; `visitBinaryExpr` evaluates both operands before its switch, so the
assignment runs and `x` ends up `2`. -/
theorem C2_right_operand_evaluated_counterexample :
    readVar (run 20 (.seq [.varStmt "x" (some (.literalExpr (.num 1))),
        .expressionStmt (.binaryExpr (.literalExpr (.bool false)) .AND
          (.assignExpr "x" (.literalExpr (.num 2))))]) initState).2 "x" =
      some (.num 2) ∧
    Value.num 2 ≠ Value.num 1 := by
  decide

/-- C4 (code bug): a runtime error raised inside a `try` that has only a
`finally` block is silently swallowed: the `catch (const RuntimeError&)`
clause always catches it and the catch body is skipped only because
`catchBlock == nullptr`.  In the run below, `throw "boom"` inside
`try/finally` is never reported (`interpret` sees no error) and the
statement after the try still executes, setting `x` to `1`. -/
theorem C4_catchless_try_swallows_error :
    (interpret 30 [.varStmt "x" (some (.literalExpr (.num 0))),
        .tryStmt (.blockStmt [.throwStmt (.literalExpr (.str "boom"))]) "" none
          (some (.blockStmt [])),
        .expressionStmt (.assignExpr "x" (.literalExpr (.num 1)))]).2.2 = none ∧
    (interpret 30 [.varStmt "x" (some (.literalExpr (.num 0))),
        .tryStmt (.blockStmt [.throwStmt (.literalExpr (.str "boom"))]) "" none
          (some (.blockStmt [])),
        .expressionStmt (.assignExpr "x" (.literalExpr (.num 1)))]).1 = .unit ∧
    readVar (interpret 30 [.varStmt "x" (some (.literalExpr (.num 0))),
        .tryStmt (.blockStmt [.throwStmt (.literalExpr (.str "boom"))]) "" none
          (some (.blockStmt [])),
        .expressionStmt (.assignExpr "x" (.literalExpr (.num 1)))]).2.1 "x" =
      some (.num 1) := by
  decide

/-- C3 (counterexample): a return signal unwinding through a
try/finally does not run the finally block.  In
`function f(): { try { return 1 } finally { x = 2 } }` followed by
`f()`, the claim says the finally block executes on the return path, so
`x` would be `2`; `ReturnValue` does not derive from `RuntimeError`, so
it bypasses the catch clause, propagates out of `visitTryStmt` before
the `if (finallyBlock)` line, and `x` stays `0`. -/
theorem C3_finally_skipped_on_return_counterexample :
    readVar (run 40 (.seq [.varStmt "x" (some (.literalExpr (.num 0))),
        .functionStmt "f" []
          [.tryStmt (.blockStmt [.returnStmt (some (.literalExpr (.num 1)))]) "" none
            (some (.blockStmt [.expressionStmt (.assignExpr "x" (.literalExpr (.num 2)))]))],
        .expressionStmt (.callExpr (.variableExpr "f") [])]) initState).2 "x" =
      some (.num 0) ∧
    Value.num 0 ≠ Value.num 2 := by
  decide

/-- C2 (amended): logical `and`/`or` are not short-circuit — both
operands are always evaluated (including the right operand's side
effects, visible here as the state `st2` after evaluating `r0`) — but
the result is still the decisive operand value itself, never a coerced
boolean: a falsy left for `and` (resp. a truthy left for `or`) yields
the left value, otherwise the right value. -/
theorem C2_logical_ops_eager_with_decisive_result (f : ℕ) (l r0 : Expr)
    (st st1 st2 : IState) (lv rv : Value)
    (hl : run f (.expr l) st = (.val lv, st1))
    (hr : run f (.expr r0) st1 = (.val rv, st2)) :
    run (f + 1) (.expr (.binaryExpr l .AND r0)) st =
      (.val (if lv.isTruthy then rv else lv), st2) ∧
    run (f + 1) (.expr (.binaryExpr l .OR r0)) st =
      (.val (if lv.isTruthy then lv else rv), st2) := by
  constructor <;>
    · simp only [run, hl, hr, evalBinary]
      cases hlt : lv.isTruthy <;> simp [hlt]

/-- C2 (witness): the amended theorem applied to the concrete expression
`true and nil` in the initial state. -/
theorem C2_witness :
    run 2 (.expr (.binaryExpr (.literalExpr (.bool true)) .AND
      (.literalExpr .nil))) initState = (.val .nil, initState) := by
  have h := (C2_logical_ops_eager_with_decisive_result 1
    (.literalExpr (.bool true)) (.literalExpr .nil) initState initState initState
    (.bool true) .nil rfl rfl).1
  simpa using h

/-- The state in which the catch block starts running: a fresh
environment child of the current one, the catch variable (if named)
bound to the error message, and the interpreter switched into it
(the catch-handling steps of `visitTryStmt`,
src/src/interpreter.cpp lines 398-405). -/
def catchEntryState (st1 : IState) (cv m : String) : IState :=
  let hs := allocEnv st1 (some st1.envH)
  let st3 := if cv = "" then hs.2 else envDefine hs.2 hs.1 cv (.str m)
  { st3 with envH := hs.1 }

lemma envDefine_envH (st : IState) (h : ℕ) (n : String) (v : Value) :
    (envDefine st h n v).envH = st.envH := by
  unfold envDefine
  cases st.envs.get? h <;> rfl

lemma catchEntry_inner_envH (st1 : IState) (cv m : String) :
    (if cv = "" then (allocEnv st1 (some st1.envH)).2
     else envDefine (allocEnv st1 (some st1.envH)).2
       (allocEnv st1 (some st1.envH)).1 cv (.str m)).envH = st1.envH := by
  split
  · rfl
  · rw [envDefine_envH]; rfl

/-- C3 (amended): with a finally block present, the finally block runs
exactly on these exits of the try statement — (a) the try block
completes normally; (b) the try block raises a runtime error and there
is no catch clause (the error is swallowed first — see C4); (c) the try
block raises a runtime error and the catch block completes normally.
It does NOT run when (d) a return signal unwinds through the try block,
or (e) the catch block itself raises a runtime error; in both cases the
signal or error propagates with the finally block skipped. -/
theorem C3_finally_runs_on_normal_and_handled_paths_only (f : ℕ) (tb : Stmt)
    (cv : String) (fstmt : Stmt) (st : IState) :
    (∀ cb st1, run f (.stmt tb) st = (.unit, st1) →
      run (f + 1) (.stmt (.tryStmt tb cv cb (some fstmt))) st =
        run f (.stmt fstmt) st1) ∧
    (∀ m st1, run f (.stmt tb) st = (.err m, st1) →
      run (f + 1) (.stmt (.tryStmt tb cv none (some fstmt))) st =
        run f (.stmt fstmt) st1) ∧
    (∀ m st1 cstmt st2, run f (.stmt tb) st = (.err m, st1) →
      run f (.stmt cstmt) (catchEntryState st1 cv m) = (.unit, st2) →
      run (f + 1) (.stmt (.tryStmt tb cv (some cstmt) (some fstmt))) st =
        run f (.stmt fstmt) { st2 with envH := st1.envH }) ∧
    (∀ cb v st1, run f (.stmt tb) st = (.ret v, st1) →
      run (f + 1) (.stmt (.tryStmt tb cv cb (some fstmt))) st = (.ret v, st1)) ∧
    (∀ m st1 cstmt m2 st2, run f (.stmt tb) st = (.err m, st1) →
      run f (.stmt cstmt) (catchEntryState st1 cv m) = (.err m2, st2) →
      run (f + 1) (.stmt (.tryStmt tb cv (some cstmt) (some fstmt))) st =
        (.err m2, { st2 with envH := st1.envH })) := by
  refine ⟨?_, ?_, ?_, ?_, ?_⟩
  · intro cb st1 h1
    simp only [run, h1]
  · intro m st1 h1
    simp only [run, h1]
  · intro m st1 cstmt st2 h1 h2
    simp only [run, h1, catchEntryState] at h2 ⊢
    simp only [h2, catchEntry_inner_envH]
  · intro cb v st1 h1
    simp only [run, h1]
  · intro m st1 cstmt m2 st2 h1 h2
    simp only [run, h1, catchEntryState] at h2 ⊢
    simp only [h2, catchEntry_inner_envH]

/-- C3 (witness): the amended theorem applied on the
normal-completion path of a concrete try/finally. -/
theorem C3_witness :
    run 11 (.stmt (.tryStmt (.expressionStmt (.literalExpr .nil)) "" none
      (some (.printStmt (.literalExpr (.str "done")))))) initState =
      run 10 (.stmt (.printStmt (.literalExpr (.str "done")))) initState :=
  (C3_finally_runs_on_normal_and_handled_paths_only 10
    (.expressionStmt (.literalExpr .nil)) "" (.printStmt (.literalExpr (.str "done")))
    initState).1 none initState rfl

/-- C10 (confirmed): an assignment expression evaluates to the assigned
value — `visitAssignExpr` returns the evaluated right-hand side after
rebinding, and `visitSetExpr` returns the evaluated value after writing
the instance field — so nested and chained assignments propagate it. -/
theorem C10_assignment_yields_assigned_value (f : ℕ) (n name : String)
    (e obj : Expr) (st st1 st2 st1' st2' : IState) (v : Value) (hI : ℕ) :
    (run f (.expr e) st = (.val v, st1) →
     envAssign st1 st1.envH n v = some st2 →
     run (f + 1) (.expr (.assignExpr n e)) st = (.val v, st2)) ∧
    (run f (.expr obj) st = (.val (.inst hI), st1') →
     run f (.expr e) st1' = (.val v, st2') →
     run (f + 1) (.expr (.setExpr obj name e)) st = (.val v, instSet st2' hI name v)) := by
  constructor
  · intro h1 h2
    simp only [run, h1, h2]
  · intro h1 h2
    simp only [run, h1, h2, Value.isInstance, Value.asInstH, Bool.not_true,
      Bool.false_eq_true, if_false]

/-- C10 (witness): a variable assignment and an instance-field set, each
yielding the assigned value, obtained from the theorem at concrete
programs and states. -/
theorem C10_witness :
    (run 2 (.expr (.assignExpr "x" (.literalExpr (.num 7))))
      (envDefine initState 0 "x" (.num 0))).1 = .val (.num 7) ∧
    (run 2 (.expr (.setExpr (.variableExpr "o") "fld" (.literalExpr (.num 5))))
      ⟨[⟨[("o", Value.inst 0)], none⟩], [], [⟨"C", none, []⟩], [⟨0, []⟩], [],
        0, 0, []⟩).1 = .val (.num 5) := by
  constructor
  · obtain ⟨st2, hst2⟩ : ∃ st2,
        envAssign (envDefine initState 0 "x" (.num 0)) 0 "x" (.num 7) = some st2 :=
      ⟨_, rfl⟩
    have h := (C10_assignment_yields_assigned_value 1 "x" "unused"
      (.literalExpr (.num 7)) (.literalExpr .nil)
      (envDefine initState 0 "x" (.num 0)) (envDefine initState 0 "x" (.num 0)) st2
      initState initState (.num 7) 0).1 rfl hst2
    rw [h]
  · have h := (C10_assignment_yields_assigned_value 1 "unused" "fld"
      (.literalExpr (.num 5)) (.variableExpr "o")
      ⟨[⟨[("o", Value.inst 0)], none⟩], [], [⟨"C", none, []⟩], [⟨0, []⟩], [],
        0, 0, []⟩
      ⟨[⟨[("o", Value.inst 0)], none⟩], [], [⟨"C", none, []⟩], [⟨0, []⟩], [],
        0, 0, []⟩ initState
      ⟨[⟨[("o", Value.inst 0)], none⟩], [], [⟨"C", none, []⟩], [⟨0, []⟩], [],
        0, 0, []⟩
      ⟨[⟨[("o", Value.inst 0)], none⟩], [], [⟨"C", none, []⟩], [⟨0, []⟩], [],
        0, 0, []⟩ (.num 5) 0).2 rfl rfl
    rw [h]

lemma instSet_envH (st : IState) (h : ℕ) (n : String) (v : Value) :
    (instSet st h n v).envH = st.envH := by
  unfold instSet
  cases st.instances.get? h <;> rfl

lemma bindParams_envH (params : List String) (args : List Value) (st : IState) (h : ℕ) :
    (bindParams st h params args).envH = st.envH := by
  unfold bindParams
  generalize params.zip args = l
  induction l generalizing st with
  | nil => rfl
  | cons p rest ih => rw [List.foldl_cons, ih, envDefine_envH]

lemma envAssignFrom_envH (st : IState) (n : String) (v : Value) :
    ∀ (fl h : ℕ) (st' : IState), envAssignFrom st fl h n v = some st' →
      st'.envH = st.envH := by
  intro fl
  induction fl with
  | zero => intro h st' hx; exact absurd hx (by simp [envAssignFrom])
  | succ fl ih =>
    intro h st' hx
    unfold envAssignFrom at hx
    split at hx
    · cases hx
    · split at hx
      · cases hx
        rfl
      · split at hx
        · rename_i p hp
          exact ih p st' hx
        · cases hx

lemma envAssign_envH (st : IState) (h : ℕ) (n : String) (v : Value) (st' : IState)
    (hx : envAssign st h n v = some st') : st'.envH = st.envH :=
  envAssignFrom_envH st n v _ h st' hx

lemma callNative_envH (st : IState) (nf : NativeFn) (args : List Value) :
    ((callNative st nf args).2).envH = st.envH := by
  cases nf <;> (unfold callNative) <;> (repeat' split) <;>
    first
    | rfl
    | (dsimp only
       repeat' split
       all_goals rfl)

lemma execClassDecl_envH (n : String) (supH : Option ℕ) (methods : List Stmt)
    (st : IState) : ((execClassDecl n supH methods st).2).envH = st.envH := by
  unfold execClassDecl
  dsimp only
  split
  · rename_i st3 hx
    rw [envAssign_envH _ _ _ _ _ hx]
    exact envDefine_envH st st.envH n Value.nil
  · exact envDefine_envH st st.envH n Value.nil

/-- Global environment invariant: every evaluation request leaves the
interpreter's `environment` handle exactly as it found it — every switch
in `executeBlock`, `visitForStmt` and the catch handling of
`visitTryStmt` is paired with a restore on all exit paths (normal
completion, runtime error, return signal, and the model's fuel cutoff
alike). -/
theorem run_envH_pres : ∀ (f : ℕ) (req : Req) (st : IState),
    ((run f req st).2).envH = st.envH := by
  intro f
  induction f with
  | zero => intro req st; rfl
  | succ f ih =>
    have IH : ∀ req st o st', run f req st = (o, st') → st'.envH = st.envH := by
      intro req st o st' h
      have h2 := ih req st
      rw [h] at h2
      exact h2
    intro req st
    cases req with
    | expr e =>
      cases e with
      | literalExpr v => rfl
      | groupingExpr e1 => exact ih (.expr e1) st
      | unaryExpr op right =>
        simp only [run]
        rcases hr : run f (.expr right) st with ⟨o, st1⟩
        have h1 := IH _ _ _ _ hr
        cases o <;> exact h1
      | binaryExpr l op r0 =>
        simp only [run]
        rcases h1 : run f (.expr l) st with ⟨o1, st1⟩
        have e1 := IH _ _ _ _ h1
        cases o1 <;> try exact e1
        dsimp only
        rcases h2 : run f (.expr r0) st1 with ⟨o2, st2⟩
        have e2 := (IH _ _ _ _ h2).trans e1
        cases o2 <;> exact e2
      | ternaryExpr c t e1 =>
        simp only [run]
        rcases h1 : run f (.expr c) st with ⟨o1, st1⟩
        have hs1 := IH _ _ _ _ h1
        cases o1 <;> try exact hs1
        dsimp only
        rename_i cv
        cases cv.isTruthy
        · simp only [Bool.false_eq_true, if_false]
          rw [ih (.expr e1) st1]
          exact hs1
        · simp only [if_true]
          rw [ih (.expr t) st1]
          exact hs1
      | variableExpr n =>
        simp only [run]
        split <;> rfl
      | assignExpr n e1 =>
        simp only [run]
        rcases h1 : run f (.expr e1) st with ⟨o1, st1⟩
        have hs1 := IH _ _ _ _ h1
        cases o1 <;> try exact hs1
        dsimp only
        rename_i v
        rcases h2 : envAssign st1 st1.envH n v with _ | st2
        · exact hs1
        · rw [envAssign_envH _ _ _ _ _ h2]
          exact hs1
      | callExpr callee arguments =>
        simp only [run]
        rcases h1 : run f (.expr callee) st with ⟨o1, st1⟩
        have hs1 := IH _ _ _ _ h1
        cases o1 <;> try exact hs1
        dsimp only
        rename_i cv
        rcases h2 : run f (.args arguments) st1 with ⟨o2, st2⟩
        have hs2 := (IH _ _ _ _ h2).trans hs1
        cases o2 <;> try exact hs2
        dsimp only
        rename_i avs
        cases cv.isCallable
        · simp only [Bool.not_false, if_true]
          exact hs2
        · simp only [Bool.not_true, Bool.false_eq_true, if_false]
          rcases h3 : st2.callables.get? cv.asCallableH with _ | c
          · exact hs2
          · dsimp only
            split
            · exact hs2
            · rw [ih (.callc c avs) st2]
              exact hs2
      | getExpr obj name =>
        simp only [run]
        rcases h1 : run f (.expr obj) st with ⟨o1, st1⟩
        have hs1 := IH _ _ _ _ h1
        cases o1 <;> try exact hs1
        dsimp only
        rename_i ov
        cases ov.isInstance
        · simp only [Bool.false_eq_true, if_false]
          exact hs1
        · simp only [if_true]
          rcases h2 : st1.instances.get? ov.asInstH with _ | idata
          · exact hs1
          · dsimp only
            rcases lookupAssoc idata.fields name with _ | v
            · dsimp only
              rcases findMethod st1 (st1.classes.length + 1) idata.klass name with _ | m
              · exact hs1
              · exact hs1
            · exact hs1
      | setExpr obj name v =>
        simp only [run]
        rcases h1 : run f (.expr obj) st with ⟨o1, st1⟩
        have hs1 := IH _ _ _ _ h1
        cases o1 <;> try exact hs1
        dsimp only
        rename_i ov
        cases ov.isInstance
        · simp only [Bool.not_false, if_true]
          exact hs1
        · simp only [Bool.not_true, Bool.false_eq_true, if_false]
          rcases h2 : run f (.expr v) st1 with ⟨o2, st2⟩
          have hs2 := (IH _ _ _ _ h2).trans hs1
          cases o2 <;> try exact hs2
          dsimp only
          rw [instSet_envH]
          exact hs2
      | thisExpr =>
        simp only [run]
        split <;> rfl
      | superExpr m => rfl
      | lambdaExpr params body => rfl
      | listExpr elements =>
        simp only [run]
        rcases h1 : run f (.args elements) st with ⟨o1, st1⟩
        have hs1 := IH _ _ _ _ h1
        cases o1 <;> exact hs1
      | indexExpr o i =>
        simp only [run]
        rcases h1 : run f (.expr o) st with ⟨o1, st1⟩
        have hs1 := IH _ _ _ _ h1
        cases o1 <;> try exact hs1
        dsimp only
        rcases h2 : run f (.expr i) st1 with ⟨o2, st2⟩
        have hs2 := (IH _ _ _ _ h2).trans hs1
        cases o2 <;> try exact hs2
        dsimp only
        repeat' split
        all_goals exact hs2
    | stmt s =>
      cases s with
      | expressionStmt e =>
        simp only [run]
        rcases h1 : run f (.expr e) st with ⟨o1, st1⟩
        have hs1 := IH _ _ _ _ h1
        cases o1 <;> exact hs1
      | printStmt e =>
        simp only [run]
        rcases h1 : run f (.expr e) st with ⟨o1, st1⟩
        have hs1 := IH _ _ _ _ h1
        cases o1 <;> exact hs1
      | varStmt n initializer =>
        simp only [run]
        rcases initializer with _ | e
        · rw [envDefine_envH]
        · dsimp only
          rcases h1 : run f (.expr e) st with ⟨o1, st1⟩
          have hs1 := IH _ _ _ _ h1
          cases o1 <;> try exact hs1
          dsimp only
          rw [envDefine_envH]
          exact hs1
      | blockStmt ss =>
        simp only [run]
        rw [ih (.block ss (allocEnv st (some st.envH)).1) (allocEnv st (some st.envH)).2]
        rfl
      | ifStmt c t e1 =>
        simp only [run]
        rcases h1 : run f (.expr c) st with ⟨o1, st1⟩
        have hs1 := IH _ _ _ _ h1
        cases o1 <;> try exact hs1
        dsimp only
        rename_i cv
        cases cv.isTruthy
        · simp only [Bool.false_eq_true, if_false]
          rcases e1 with _ | s2
          · exact hs1
          · dsimp only
            rw [ih (.stmt s2) st1]
            exact hs1
        · simp only [if_true]
          rw [ih (.stmt t) st1]
          exact hs1
      | whileStmt c body =>
        simp only [run]
        rcases h1 : run f (.expr c) st with ⟨o1, st1⟩
        have hs1 := IH _ _ _ _ h1
        cases o1 <;> try exact hs1
        dsimp only
        rename_i cv
        cases cv.isTruthy
        · simp only [Bool.false_eq_true, if_false]
          exact hs1
        · simp only [if_true]
          rcases h2 : run f (.stmt body) st1 with ⟨o2, st2⟩
          have hs2 := (IH _ _ _ _ h2).trans hs1
          cases o2 <;> try exact hs2
          dsimp only
          rw [ih (.stmt (.whileStmt c body)) st2]
          exact hs2
      | forStmt initializer c inc body => rfl
      | functionStmt n params body =>
        simp only [run]
        rw [envDefine_envH]
        rfl
      | returnStmt value =>
        simp only [run]
        rcases value with _ | e
        · rfl
        · dsimp only
          rcases h1 : run f (.expr e) st with ⟨o1, st1⟩
          have hs1 := IH _ _ _ _ h1
          cases o1 <;> exact hs1
      | classStmt n superclass methods =>
        simp only [run]
        rcases superclass with _ | se
        · exact execClassDecl_envH n none methods st
        · dsimp only
          rcases h1 : run f (.expr se) st with ⟨o1, st1⟩
          have hs1 := IH _ _ _ _ h1
          cases o1 <;> try exact hs1
          dsimp only
          rename_i sv
          cases sv.isClass
          · simp only [Bool.not_false, if_true]
            exact hs1
          · simp only [Bool.not_true, Bool.false_eq_true, if_false]
            rw [execClassDecl_envH]
            exact hs1
      | importStmt module aliasLexeme =>
        simp only [run]
        split
        · rw [envDefine_envH]
        · rw [envDefine_envH, envDefine_envH]
      | tryStmt tb cv cb fb =>
        simp only [run]
        have mainU : ∀ st5 : IState, st5.envH = st.envH →
            ((match fb with
              | some fstmt => run f (.stmt fstmt) st5
              | none => ((.unit : Outc), st5)).2).envH = st.envH := by
          intro st5 h5
          rcases fb with _ | fstmt
          · exact h5
          · dsimp only
            rw [ih (.stmt fstmt) st5]
            exact h5
        rcases h1 : run f (.stmt tb) st with ⟨o1, st1⟩
        have hs1 := IH _ _ _ _ h1
        cases o1 <;> try (dsimp only; first | exact hs1 | exact mainU st1 hs1)
        rename_i m
        rcases cb with _ | cstmt
        · dsimp only
          exact mainU st1 hs1
        · dsimp only
          have hprev : ((if cv = "" then (allocEnv st1 (some st1.envH)).2
              else envDefine (allocEnv st1 (some st1.envH)).2
                (allocEnv st1 (some st1.envH)).1 cv (.str m))).envH = st.envH :=
            (catchEntry_inner_envH st1 cv m).trans hs1
          rcases hrc : run f (.stmt cstmt)
            { (if cv = "" then (allocEnv st1 (some st1.envH)).2
               else envDefine (allocEnv st1 (some st1.envH)).2
                 (allocEnv st1 (some st1.envH)).1 cv (.str m)) with
              envH := (allocEnv st1 (some st1.envH)).1 } with ⟨oc, stc⟩
          cases oc <;> first
            | exact hprev
            | exact mainU _ hprev
      | throwStmt e =>
        simp only [run]
        rcases h1 : run f (.expr e) st with ⟨o1, st1⟩
        have hs1 := IH _ _ _ _ h1
        cases o1 <;> exact hs1
      | switchStmt e cs dflt =>
        simp only [run]
        rcases h1 : run f (.expr e) st with ⟨o1, st1⟩
        have hs1 := IH _ _ _ _ h1
        cases o1 <;> try exact hs1
        dsimp only
        rename_i sv
        rw [ih (.switchCases sv cs dflt) st1]
        exact hs1
    | seq ss =>
      rcases ss with _ | ⟨s, rest⟩
      · rfl
      · simp only [run]
        rcases h1 : run f (.stmt s) st with ⟨o1, st1⟩
        have hs1 := IH _ _ _ _ h1
        cases o1 <;> try exact hs1
        dsimp only
        rw [ih (.seq rest) st1]
        exact hs1
    | block ss h =>
      simp only [run]
      rcases h1 : run f (.seq ss) { st with envH := h } with ⟨o1, st1⟩
      cases o1 <;> rfl
    | callc c avs =>
      cases c with
      | fn decl closure =>
        simp only [run]
        rcases h1 : run f (.block decl.body (allocEnv st (some closure)).1)
          (bindParams (allocEnv st (some closure)).2 (allocEnv st (some closure)).1
            decl.params avs) with ⟨o1, st1⟩
        have hs1 := IH _ _ _ _ h1
        rw [bindParams_envH] at hs1
        cases o1 <;> exact hs1
      | lam params body closure =>
        simp only [run]
        rcases h1 : run f (.block body (allocEnv st (some closure)).1)
          (bindParams (allocEnv st (some closure)).2 (allocEnv st (some closure)).1
            params avs) with ⟨o1, st1⟩
        have hs1 := IH _ _ _ _ h1
        rw [bindParams_envH] at hs1
        cases o1 <;> exact hs1
      | boundMethod instv decl closure =>
        simp only [run]
        rcases h1 : run f (.block decl.body (allocEnv st (some closure)).1)
          (bindParams (envDefine (allocEnv st (some closure)).2
            (allocEnv st (some closure)).1 "this" instv)
            (allocEnv st (some closure)).1 decl.params avs) with ⟨o1, st1⟩
        have hs1 := IH _ _ _ _ h1
        rw [bindParams_envH, envDefine_envH] at hs1
        cases o1 <;> exact hs1
      | native nf =>
        cases nf <;> simp only [run] <;> try exact callNative_envH st _ avs
        · -- mapFn
          split
          · rfl
          · rcases avs with _ | ⟨fv, _ | ⟨lv, _ | _⟩⟩ <;> try rfl
            dsimp only
            split
            · rfl
            · rcases hA : st.callables.get? fv.asCallableH with _ | fc <;>
                rcases hB : st.lists.get? lv.asListH with _ | items <;> try rfl
              dsimp only
              rcases hR : run f (.mapItems fc items) st with ⟨o1, st1⟩
              have hs1 := IH _ _ _ _ hR
              cases o1 <;> exact hs1
        · -- filterFn
          split
          · rfl
          · rcases avs with _ | ⟨fv, _ | ⟨lv, _ | _⟩⟩ <;> try rfl
            dsimp only
            split
            · rfl
            · rcases hA : st.callables.get? fv.asCallableH with _ | fc <;>
                rcases hB : st.lists.get? lv.asListH with _ | items <;> try rfl
              dsimp only
              rcases hR : run f (.filterItems fc items) st with ⟨o1, st1⟩
              have hs1 := IH _ _ _ _ hR
              cases o1 <;> exact hs1
    | args es =>
      rcases es with _ | ⟨e, rest⟩
      · rfl
      · simp only [run]
        rcases h1 : run f (.expr e) st with ⟨o1, st1⟩
        have hs1 := IH _ _ _ _ h1
        cases o1 <;> try exact hs1
        dsimp only
        rcases h2 : run f (.args rest) st1 with ⟨o2, st2⟩
        have hs2 := (IH _ _ _ _ h2).trans hs1
        cases o2 <;> exact hs2
    | forLoop c inc body =>
      simp only [run]
      have condCase : ∀ (cr : Outc × IState), (cr.2).envH = st.envH →
          ((match cr with
            | (.val cv, st1) =>
              if cv.isTruthy then
                match run f (.stmt body) st1 with
                | (.unit, st2) =>
                  match inc with
                  | some ie =>
                    match run f (.expr ie) st2 with
                    | (.val _, st3) => run f (.forLoop c inc body) st3
                    | other => other
                  | none => run f (.forLoop c inc body) st2
                | other => other
              else (.unit, st1)
            | other => other).2).envH = st.envH := by
        intro cr hcr
        rcases cr with ⟨o1, st1⟩
        cases o1 <;> try exact hcr
        dsimp only
        rename_i cv
        cases cv.isTruthy
        · simp only [Bool.false_eq_true, if_false]
          exact hcr
        · simp only [if_true]
          rcases h2 : run f (.stmt body) st1 with ⟨o2, st2⟩
          have hs2 := (IH _ _ _ _ h2).trans hcr
          cases o2 <;> try exact hs2
          dsimp only
          rcases inc with _ | ie
          · dsimp only
            rw [ih (.forLoop c none body) st2]
            exact hs2
          · dsimp only
            rcases h3 : run f (.expr ie) st2 with ⟨o3, st3⟩
            have hs3 := (IH _ _ _ _ h3).trans hs2
            cases o3 <;> try exact hs3
            dsimp only
            rw [ih (.forLoop c (some ie) body) st3]
            exact hs3
      rcases c with _ | ce
      · exact condCase (.val (.bool true), st) rfl
      · dsimp only
        rcases h1 : run f (.expr ce) st with ⟨o1, st1⟩
        exact condCase (o1, st1) (IH _ _ _ _ h1)
    | switchCases sv cs dflt =>
      rcases cs with _ | ⟨⟨ce, cbody⟩, rest⟩
      · simp only [run]
        rcases dflt with _ | d
        · rfl
        · exact ih (.stmt d) st
      · simp only [run]
        rcases h1 : run f (.expr ce) st with ⟨o1, st1⟩
        have hs1 := IH _ _ _ _ h1
        cases o1 <;> try exact hs1
        dsimp only
        rename_i cv
        cases Value.veq sv cv
        · simp only [Bool.false_eq_true, if_false]
          rw [ih (.switchCases sv rest dflt) st1]
          exact hs1
        · simp only [if_true]
          rw [ih (.stmt cbody) st1]
          exact hs1
    | mapItems fc items =>
      rcases items with _ | ⟨v, rest⟩
      · rfl
      · simp only [run]
        rcases h1 : run f (.callc fc [v]) st with ⟨o1, st1⟩
        have hs1 := IH _ _ _ _ h1
        cases o1 <;> try exact hs1
        dsimp only
        rcases h2 : run f (.mapItems fc rest) st1 with ⟨o2, st2⟩
        have hs2 := (IH _ _ _ _ h2).trans hs1
        cases o2 <;> exact hs2
    | filterItems fc items =>
      rcases items with _ | ⟨v, rest⟩
      · rfl
      · simp only [run]
        rcases h1 : run f (.callc fc [v]) st with ⟨o1, st1⟩
        have hs1 := IH _ _ _ _ h1
        cases o1 <;> try exact hs1
        dsimp only
        rcases h2 : run f (.filterItems fc rest) st1 with ⟨o2, st2⟩
        have hs2 := (IH _ _ _ _ h2).trans hs1
        cases o2 <;> exact hs2

/-- C5 (confirmed): block statements, for statements, and
function/lambda/bound-method calls leave the interpreter's current
environment handle exactly as they found it, on every outcome — normal
completion, a propagating runtime error, a return signal unwinding
through them, and the model's fuel cutoff.  (Each is an instance of the
global invariant `run_envH_pres`, which checks every push/restore pair
in `executeBlock`, `visitForStmt`, the catch handling of `visitTryStmt`
and the `call` implementations.) -/
theorem C5_environment_reference_restored (f : ℕ) (ss : List Stmt)
    (initializer : Option Stmt) (c inc : Option Expr) (body : Stmt)
    (cobj : CallableObj) (args : List Value) (st : IState) :
    ((run f (.stmt (.blockStmt ss)) st).2).envH = st.envH ∧
    ((run f (.stmt (.forStmt initializer c inc body)) st).2).envH = st.envH ∧
    ((run f (.callc cobj args) st).2).envH = st.envH :=
  ⟨run_envH_pres f _ st, run_envH_pres f _ st, run_envH_pres f _ st⟩

lemma numberToString_tiny :
    numberToString ((1 : ℚ)/10000000) = "0.000000" := by
  have hq : ((1 : ℚ)/10000000) = (⟨1, 10000000, by norm_num, by norm_num⟩ : ℚ) := by
    rw [Rat.mk'_eq_divInt, Rat.divInt_eq_div]
    norm_num
  have htr : truncD ((1 : ℚ)/10000000) = 0 := by
    rw [hq]
    decide
  have hne : ¬((1 : ℚ)/10000000 = ((truncD ((1 : ℚ)/10000000) : ℤ) : ℚ)) := by
    rw [htr]
    push_cast
    norm_num
  have habs : |(1 : ℚ)/10000000| * 1000000 = 1/10 := by
    rw [abs_of_pos (by norm_num : (0 : ℚ) < 1/10000000)]
    norm_num
  have hround : round ((1 : ℚ)/10) = 0 := by
    rw [round_eq, Int.floor_eq_zero_iff]
    constructor <;> norm_num
  unfold numberToString
  rw [if_neg hne]
  unfold fixed6
  rw [if_neg (by norm_num : ¬((1 : ℚ)/10000000 < 0)), habs, hround]
  decide

lemma stodModel_tiny : stodModel "0.000000" = some 0 := by
  have h := parseUnsigned_digits_frac ['0'] ['0', '0', '0', '0', '0', '0']
    (by simp) (by decide) (by decide)
  have h2 : stodModel "0.000000" = some ((charsToNat ['0'] : ℚ) +
      (charsToNat ['0', '0', '0', '0', '0', '0'] : ℚ) / (10 : ℚ) ^ (6 : ℕ)) := by
    simpa [stodModel] using h
  rw [h2]
  norm_num [charsToNat, Nat.ofDigits, show digVal '0' = 0 from by decide]

/-- C8 (counterexample): the str/num round trip is not exact for every
finite number: `str` renders only six fractional digits, so
`str(1e-7)` is `"0.000000"` and `num` parses it back to `0 ≠ 1e-7`. -/
theorem C8_roundtrip_counterexample :
    callNative initState .strFn [.num ((1 : ℚ)/10000000)] =
      (.val (.str "0.000000"), initState) ∧
    callNative initState .numFn [.str "0.000000"] =
      (.val (.num 0), initState) ∧
    (0 : ℚ) ≠ (1 : ℚ)/10000000 := by
  refine ⟨?_, ?_, by norm_num⟩
  · show (.val (.str (valueToString initState (.num ((1 : ℚ)/10000000)))), initState) =
      ((.val (.str "0.000000") : Outc), initState)
    rw [show valueToString initState (.num ((1 : ℚ)/10000000)) =
      numberToString ((1 : ℚ)/10000000) from rfl, numberToString_tiny]
  · show (match stodModel "0.000000" with
      | some q => ((.val (.num q) : Outc), initState)
      | none => ((.fatal ("Cannot convert '" ++ "0.000000" ++ "' to number") : Outc),
          initState)) = ((.val (.num 0) : Outc), initState)
    rw [stodModel_tiny]

/-- C8 (amended): the round trip `num(str(n))` returns `n` exactly for
every finite number `n` that is an integral multiple of `10^-6`
(in particular every integer) and within int range (`|n| < 2^31`, where
the `static_cast<int>` in `Value::toString` is defined); for general
finite numbers it fails, because `str` renders only six fractional
digits — see the counterexample at `n = 1e-7`. -/
theorem C8_num_str_roundtrip (st : IState) (q : ℚ)
    (h1 : (q * 1000000).den = 1) (_hrange : |q| < 2 ^ 31) :
    callNative st .strFn [.num q] = (.val (.str (numberToString q)), st) ∧
    callNative st .numFn [.str (numberToString q)] = (.val (.num q), st) := by
  constructor
  · rfl
  · show (match stodModel (numberToString q) with
      | some r => ((.val (.num r) : Outc), st)
      | none => ((.fatal ("Cannot convert '" ++ numberToString q ++ "' to number") : Outc),
          st)) = ((.val (.num q) : Outc), st)
    rw [stod_numberToString q h1]

/-- C8 (witness): the amended theorem applied at `n = 1/2`, whose string
form is `"0.500000"`. -/
theorem C8_roundtrip_witness :
    (((1 : ℚ)/2) * 1000000).den = 1 ∧ |(1 : ℚ)/2| < 2 ^ 31 ∧
    callNative initState .numFn [.str (numberToString ((1 : ℚ)/2))] =
      (.val (.num ((1 : ℚ)/2)), initState) := by
  have hd : (((1 : ℚ)/2) * 1000000).den = 1 := by norm_num
  have hb : |(1 : ℚ)/2| < 2 ^ 31 := by
    rw [abs_of_pos (by norm_num : (0 : ℚ) < 1/2)]
    norm_num
  exact ⟨hd, hb, (C8_num_str_roundtrip initState ((1 : ℚ)/2) hd hb).2⟩

end FocusNexus
